import Mathlib

/-!
Verification development for the document segmentation and
anonymization-quality scoring engine of the `redact-with-ai` repository
(`src/utils.py`, `src/testing_engine.py`, `src/scoring_system.py`,
`src/config.py`).

Python text values are modelled as `List Char` (`PyStr`).  The external
collaborators declared by the design (the spaCy named-entity recognizer,
the regex legal-pattern matcher, the Ollama generation service) are
modelled by their outputs, which the probes consume; all the repository's
own computation on those outputs is translated directly from the source.
The length estimator `count_tokens` relies on the external `tiktoken`
tokenizer with a `len(text) // 4` fallback; the embedding uses that
fallback branch of the source as the estimator.  `round(x, 2)` display
rounding of scores is omitted: scores are kept as exact rationals, which
also matches the source's risk-tier computation (the source computes the
tier from the unrounded score).
-/

/-- Python `str` modelled as a list of characters. -/
abbrev PyStr := List Char

/-- Convenience conversion from a Lean string literal to `PyStr`. -/
def pystr (s : String) : PyStr := s.data

/-- `text.lower()` (ASCII case folding, as in Python for ASCII text). -/
def pyLower (t : PyStr) : PyStr := t.map Char.toLower

/-- Helper for `pyWords`: accumulates the current word (`cur`) while
scanning the remaining characters.  Mirrors Python `str.split()` with no
argument: maximal runs of non-whitespace are words, whitespace is
discarded, no empty words are produced. -/
def pyWordsAux (cur : PyStr) : PyStr → List PyStr
  | [] => if cur = [] then [] else [cur]
  | c :: cs =>
    if c.isWhitespace then
      if cur = [] then pyWordsAux [] cs else cur :: pyWordsAux [] cs
    else
      pyWordsAux (cur ++ [c]) cs

/-- Python `text.split()` (whitespace split, dropping empties). -/
def pyWords (t : PyStr) : List PyStr := pyWordsAux [] t

/-- Drop leading whitespace (Python `lstrip()`). -/
def dropWS : PyStr → PyStr
  | [] => []
  | c :: cs => if c.isWhitespace then dropWS cs else c :: cs

/-- Drop trailing whitespace (Python `rstrip()`). -/
def dropEndWS : PyStr → PyStr
  | [] => []
  | c :: cs =>
    let r := dropEndWS cs
    if r = [] ∧ c.isWhitespace then [] else c :: r

/-- Python `text.strip()`: drop leading and trailing whitespace. -/
def pyStrip (t : PyStr) : PyStr := dropEndWS (dropWS t)

/-- `' '.join(words)`. -/
def joinSpace : List PyStr → PyStr
  | [] => []
  | [w] => w
  | w :: v :: ws => w ++ ' ' :: joinSpace (v :: ws)

/-- The two-character paragraph separator `"\n\n"`. -/
def nl2 : PyStr := ['\n', '\n']

/-- Python `text.split('\n\n')`: split on non-overlapping occurrences of
the two-character separator, scanning left to right.  From `utils.py`
line 34 (`chunk_text`). -/
def splitPara : PyStr → List PyStr
  | [] => [[]]
  | [c] => [[c]]
  | c :: d :: rest =>
    if c = '\n' ∧ d = '\n' then [] :: splitPara rest
    else
      match splitPara (d :: rest) with
      | [] => [[c]]
      | p :: ps => (c :: p) :: ps

/-- `count_tokens` (`utils.py` lines 12-21).  The primary branch calls the
external `tiktoken` tokenizer; the source's fallback approximation
`len(text) // 4` is used as the estimator here. -/
def count_tokens (t : PyStr) : ℕ := t.length / 4

/-- Is `c` one of the sentence terminators `.` `!` `?`. -/
def isTermChar (c : Char) : Bool := c = '.' || c = '!' || c = '?'

/-- Scanner state for `split_sentences`' regex `(?<=[.!?])\s+`:
`norm` = previous character is not a terminator, `term` = previous
character is a terminator, `run` = currently skipping a matched
whitespace run. -/
inductive SState where
  | norm
  | term
  | run
deriving Repr, DecidableEq

/-- Core of `re.split(r'(?<=[.!?])\s+', text)`: split at each maximal
whitespace run immediately preceded by a terminator character. -/
def ssAux : SState → PyStr → List PyStr
  | _, [] => [[]]
  | st, c :: cs =>
    if c.isWhitespace then
      match st with
      | .term => [] :: ssAux .run cs
      | .run => ssAux .run cs
      | .norm =>
        match ssAux .norm cs with
        | [] => [[c]]
        | p :: ps => (c :: p) :: ps
    else
      match ssAux (if isTermChar c then .term else .norm) cs with
      | [] => [[c]]
      | p :: ps => (c :: p) :: ps

/-- `split_sentences` (`utils.py` lines 92-98): regex split on
`(?<=[.!?])\s+`, then strip each piece and drop empties. -/
def split_sentences (t : PyStr) : List PyStr :=
  ((ssAux .norm t).map pyStrip).filter (· ≠ [])

/-- `get_overlap_text` (`utils.py` lines 101-111).  Note the two Python
quirks reproduced here: when the word count is at most
`overlap_tokens // 2` the whole (unstripped) text is returned, and when
`overlap_tokens // 2 = 0` the slice `words[-0:]` is the whole word list,
so the "tail" is again all the words. -/
def get_overlap_text (text : PyStr) (overlap_tokens : ℕ) : PyStr :=
  let words := pyWords text
  if words.length ≤ overlap_tokens / 2 then text
  else
    let overlap_words :=
      if overlap_tokens / 2 = 0 then words
      else words.drop (words.length - overlap_tokens / 2)
    joinSpace overlap_words ++ [' ']

/-- A chunk record `{"text": ..., "tokens": ..., "chunk_id": ...}` as
built by `chunk_text`. -/
structure Chunk where
  text : PyStr
  tokens : ℕ
  chunk_id : ℕ
deriving Repr, DecidableEq

/-- The loop state of `chunk_text`: emitted chunks, the running buffer
`current_chunk` and the running estimate `current_tokens`. -/
structure CState where
  chunks : List Chunk
  buf : PyStr
  toks : ℕ
deriving Repr, DecidableEq

/-- One iteration of the inner sentence loop of `chunk_text`
(`utils.py` lines 45-62). -/
def sentStep (chunk_size overlap : ℕ) (st : CState) (s : PyStr) : CState :=
  let sent_tokens := count_tokens s
  if st.toks + sent_tokens > chunk_size ∧ st.buf ≠ [] then
    let c : Chunk := ⟨pyStrip st.buf, st.toks, st.chunks.length⟩
    let overlap_text := get_overlap_text st.buf overlap
    let nb := overlap_text ++ s
    ⟨st.chunks ++ [c], nb, count_tokens nb⟩
  else
    ⟨st.chunks, st.buf ++ s, st.toks + sent_tokens⟩

/-- One iteration of the paragraph loop of `chunk_text`
(`utils.py` lines 39-79). -/
def paraStep (chunk_size overlap : ℕ) (st : CState) (p : PyStr) : CState :=
  let para_tokens := count_tokens p
  if para_tokens > chunk_size then
    (split_sentences p).foldl (sentStep chunk_size overlap) st
  else if st.toks + para_tokens > chunk_size ∧ st.buf ≠ [] then
    let c : Chunk := ⟨pyStrip st.buf, st.toks, st.chunks.length⟩
    let overlap_text := get_overlap_text st.buf overlap
    let nb := overlap_text ++ p ++ nl2
    ⟨st.chunks ++ [c], nb, count_tokens nb⟩
  else
    ⟨st.chunks, st.buf ++ p ++ nl2, st.toks + para_tokens⟩

/-- The final flush of `chunk_text` (`utils.py` lines 81-87): emit the
buffer as a last chunk when its stripped text is non-blank. -/
def chunkFinal (st : CState) : List Chunk :=
  if pyStrip st.buf ≠ [] then
    st.chunks ++ [⟨pyStrip st.buf, st.toks, st.chunks.length⟩]
  else
    st.chunks

/-- `chunk_text` (`utils.py` lines 24-89): paragraph-first accumulation
with sentence-level fallback for oversized paragraphs, overlap seeding on
every chunk close, and a final flush of the non-blank buffer. -/
def chunk_text (t : PyStr) (chunk_size overlap : ℕ) : List Chunk :=
  chunkFinal ((splitPara t).foldl (paraStep chunk_size overlap) ⟨[], [], 0⟩)

/-- Does `hay` start with `needle`? -/
def pyStartsWith : PyStr → PyStr → Bool
  | [], _ => true
  | _ :: _, [] => false
  | a :: as_, b :: bs => a = b && pyStartsWith as_ bs

/-- Python's substring test `needle in hay`: `needle` occurs contiguously
in `hay` (always true for the empty needle, as in Python). -/
def pyContains (hay needle : PyStr) : Bool :=
  match hay with
  | [] => needle = []
  | _ :: t => pyStartsWith needle hay || pyContains t needle

/-- `calculate_similarity` (`utils.py` lines 228-241): word-set Jaccard
similarity of the lowercased texts, `0.0` when the union of the word sets
is empty. -/
def calculate_similarity (text1 text2 : PyStr) : ℚ :=
  let words1 := (pyWords (pyLower text1)).toFinset
  let words2 := (pyWords (pyLower text2)).toFinset
  let inter := words1 ∩ words2
  let union := words1 ∪ words2
  if union = ∅ then 0 else (inter.card : ℚ) / (union.card : ℚ)

/-- `extract_unique_phrases` (`utils.py` lines 244-257): the distinct
`min_length`-grams of the lowercased word list.  Python returns
`list(set(phrases))` in unspecified order; every consumer only uses
membership and the number of distinct phrases, both order-independent, so
the deduplicated list in first-occurrence order is used here.  The range
bound `len(words) - min_length + 1` is written `words.length + 1 -
min_length` so that truncated natural subtraction agrees with the Python
integer value (empty range when the text is too short). -/
def extract_unique_phrases (t : PyStr) (min_length : ℕ) : List PyStr :=
  let words := pyWords (pyLower t)
  let phrases := (List.range (words.length + 1 - min_length)).map
    (fun i => joinSpace ((words.drop i).take min_length))
  phrases.dedup

/-- One spaCy entity record as consumed by `extract_entities_spacy`
(`utils.py` lines 130-136).  The character offsets of the source record
are omitted: no probe reads them. -/
structure SpacyEnt where
  text : PyStr
  label : String
deriving Repr, DecidableEq

/-- `ENTITY_TYPES` (`config.py` lines 86-92). -/
def ENTITY_TYPES_legal : List String :=
  ["PERSON", "ORG", "GPE", "LAW", "COURT", "JUDGE", "ATTORNEY"]

def ENTITY_TYPES_personal : List String :=
  ["PERSON", "PHONE", "EMAIL", "SSN", "ADDRESS"]

def ENTITY_TYPES_business : List String :=
  ["ORG", "MONEY", "PRODUCT", "EVENT"]

def ENTITY_TYPES_temporal : List String :=
  ["DATE", "TIME", "DURATION"]

def ENTITY_TYPES_jurisdictional : List String :=
  ["GPE", "LAW", "COURT"]

/-- The five-category entity dictionary returned by
`extract_entities_spacy`. -/
structure EntityDict where
  legal : List SpacyEnt
  personal : List SpacyEnt
  business : List SpacyEnt
  temporal : List SpacyEnt
  jurisdictional : List SpacyEnt
deriving Repr, DecidableEq

/-- `extract_entities_spacy` (`utils.py` lines 114-153), parameterized by
the outcome of the external spaCy pipeline (`doc.ents`).  Each entity is
appended to every category whose `ENTITY_TYPES` list contains its label
(the category tests are independent `if`s, so one entity can land in
several categories).  Any exception from the pipeline is caught and the
all-empty dictionary returned. -/
def extract_entities_spacy (spacyOut : Except String (List SpacyEnt)) : EntityDict :=
  match spacyOut with
  | .error _ => ⟨[], [], [], [], []⟩
  | .ok ents =>
    ⟨ents.filter (fun e => ENTITY_TYPES_legal.contains e.label),
     ents.filter (fun e => ENTITY_TYPES_personal.contains e.label),
     ents.filter (fun e => ENTITY_TYPES_business.contains e.label),
     ents.filter (fun e => ENTITY_TYPES_temporal.contains e.label),
     ents.filter (fun e => ENTITY_TYPES_jurisdictional.contains e.label)⟩

/-- The subset of a probe's result dictionary referenced by the
specification: the score, the `risk_level` value when the dictionary has
that key (`none` on the failure paths, which return only `score` and
`error`), the `error` string, and the `message` string of the
empty-corpus branch of the cross-reference probe.  Probe-specific
evidence fields (leaked samples, similarity tables, counts) are not
referenced by any claim and are omitted. -/
structure ProbeResult where
  score : ℚ
  riskLevel : Option String
  error : Option String
  message : Option String
deriving Repr, DecidableEq

/-- The risk-tier expression repeated in every probe
(`testing_engine.py` lines 109, 158, 215, 258, 304):
`"high" if score < 70 else "medium" if score < 90 else "low"`. -/
def riskOf (score : ℚ) : String :=
  if score < 70 then "high" else if score < 90 then "medium" else "low"

/-- The flattened per-category entity text list built by
`test_direct_identifiers` (`testing_engine.py` lines 84-88): iterate the
five categories in insertion order, lowercasing each entity text.  An
entity is repeated once per category containing it. -/
def allEntityTexts (spacyOut : Except String (List SpacyEnt)) : List PyStr :=
  let d := extract_entities_spacy spacyOut
  (d.legal ++ d.personal ++ d.business ++ d.temporal ++ d.jurisdictional).map
    (fun e => pyLower e.text)

/-- `test_direct_identifiers` (`testing_engine.py` lines 76-116):
case-insensitive verbatim substring search for each extracted entity
occurrence in the anonymized text;
`score = max(0, 100 - leaked/total * 100)`, `100` with no entities. -/
def test_direct_identifiers (spacyOut : Except String (List SpacyEnt))
    (anonymized_text : PyStr) : ProbeResult :=
  let all_entities := allEntityTexts spacyOut
  let anonymized_lower := pyLower anonymized_text
  let matches_found := all_entities.filter (fun e => pyContains anonymized_lower e)
  let score : ℚ :=
    if all_entities ≠ [] then
      max 0 (100 - ((matches_found.length : ℚ) / (all_entities.length : ℚ) * 100))
    else 100
  ⟨score, some (riskOf score), none, none⟩

/-- `test_pattern_matching` (`testing_engine.py` lines 118-165),
parameterized by the outcome of the external regex pattern extractor
(`extract_legal_patterns` applied to the original and anonymized texts;
the design treats the legal-pattern matcher as an external signal
extractor).  `preserved_patterns` receives one entry per matching
(original, anonymized) pattern pair, exactly as the nested source loops
do.  An exception from the extractor is caught by the probe's
`try/except` and becomes the zero-score error result (which carries no
`risk_level` key). -/
def test_pattern_matching (legalOut : Except String (List PyStr × List PyStr))
    (original_text anonymized_text : PyStr) : ProbeResult :=
  match legalOut with
  | .error e => ⟨0, none, some ("Pattern matching test failed: " ++ e), none⟩
  | .ok (original_patterns, anonymized_patterns) =>
    let preserved_patterns := original_patterns.flatMap
      (fun op => (anonymized_patterns.filter (fun ap => pyLower ap = pyLower op)).map
        (fun _ => op))
    let original_phrases := extract_unique_phrases original_text 4
    let anonymized_phrases := extract_unique_phrases anonymized_text 4
    let preserved_phrases := original_phrases.filter (· ∈ anonymized_phrases)
    let total_patterns := original_patterns.length + original_phrases.length
    let total_preserved := preserved_patterns.length + preserved_phrases.length
    let score : ℚ :=
      if total_patterns > 0 then
        max 0 (100 - ((total_preserved : ℚ) / (total_patterns : ℚ) * 100))
      else 100
    ⟨score, some (riskOf score), none, none⟩

/-- The result dictionary of `OllamaClient.test_reconstruction`
(`ollama_client.py` lines 197-236), the external generation service's
reconstruction attempt as consumed by the contextual probe.  A timeout or
connection failure surfaces as `success = false` with the error text. -/
structure ReconResult where
  success : Bool
  reconstruction_attempt : PyStr
  error : String
  processing_time : ℚ
deriving Repr, DecidableEq

/-- The ten confidence-asserting phrases scanned by
`test_contextual_reconstruction` (`testing_engine.py` lines 184-187). -/
def confidence_indicators : List PyStr :=
  [pystr "confident", pystr "certain", pystr "likely", pystr "probably",
   pystr "appears to be", pystr "suggests", pystr "indicates",
   pystr "evidence of", pystr "based on", pystr "clearly"]

/-- The ten identifying-detail category names scanned by
`test_contextual_reconstruction` (`testing_engine.py` lines 193-196). -/
def specific_details : List PyStr :=
  [pystr "case name", pystr "court", pystr "judge", pystr "attorney",
   pystr "company", pystr "date", pystr "location", pystr "plaintiff",
   pystr "defendant", pystr "parties"]

/-- `test_contextual_reconstruction` (`testing_engine.py` lines 167-222):
on a failed generation-service call the probe returns `score = 0` with
the service error and no `risk_level` key; otherwise it counts the
confidence and detail vocabulary hits in the lowercased response and
scores `max(0, 100 - 50*conf/10 - 50*det/10)`. -/
def test_contextual_reconstruction (recon : ReconResult) : ProbeResult :=
  if recon.success = false then
    ⟨0, none, some recon.error, none⟩
  else
    let reconstruction_lower := pyLower recon.reconstruction_attempt
    let confidence_count :=
      (confidence_indicators.filter (fun w => pyContains reconstruction_lower w)).length
    let details_count :=
      (specific_details.filter (fun w => pyContains reconstruction_lower w)).length
    let confidence_penalty : ℚ :=
      (confidence_count : ℚ) / (confidence_indicators.length : ℚ) * 50
    let details_penalty : ℚ :=
      (details_count : ℚ) / (specific_details.length : ℚ) * 50
    let score := max 0 (100 - confidence_penalty - details_penalty)
    ⟨score, some (riskOf score), none, none⟩

/-- One corpus entry as stored by `add_to_corpus`
(`testing_engine.py` lines 21-29); the extracted-signal fields are not
read by the cross-reference probe and are omitted. -/
structure CorpusDoc where
  filename : String
  text : PyStr
deriving Repr, DecidableEq

/-- Python `max(..., key=lambda x: x["similarity"])` over a non-empty
list, seeded with the first element: keeps the earlier element on ties,
replaces on strictly greater similarity. -/
def maxBySimilarity (x : String × ℚ) : List (String × ℚ) → String × ℚ
  | [] => x
  | y :: ys => if y.2 > x.2 then maxBySimilarity y ys else maxBySimilarity x ys

/-- `test_cross_reference` (`testing_engine.py` lines 224-265): score
`100` with an explanatory message on an empty corpus, otherwise
`max(0, 100 - max_similarity * 100)` over the per-entry word-set Jaccard
similarities. -/
def test_cross_reference (corpus : List CorpusDoc) (anonymized_text : PyStr) :
    ProbeResult :=
  match corpus with
  | [] =>
    ⟨100, some "low", none, some "No corpus available for cross-reference testing"⟩
  | d :: ds =>
    let sim := fun doc : CorpusDoc => (doc.filename, calculate_similarity anonymized_text doc.text)
    let max_similarity := maxBySimilarity (sim d) (ds.map sim)
    let score : ℚ := max 0 (100 - max_similarity.2 * 100)
    ⟨score, some (riskOf score), none, none⟩

/-- Core of `re.split(r'[.!?]+', text)` used by
`test_linguistic_fingerprinting` (`testing_engine.py` lines 273-274):
split at maximal runs of terminator characters.  The boolean flag records
whether the scanner is inside such a run. -/
def reSplitTerm : Bool → PyStr → List PyStr
  | _, [] => [[]]
  | inRun, c :: cs =>
    if isTermChar c then
      if inRun then reSplitTerm true cs else [] :: reSplitTerm true cs
    else
      match reSplitTerm false cs with
      | [] => [[c]]
      | p :: ps => (c :: p) :: ps

/-- `test_linguistic_fingerprinting` (`testing_engine.py` lines 267-311).
The three `if ... = 0` guards reproduce, in evaluation order, the
Python `ZeroDivisionError` raised when the original text has no words,
fewer than three words (no 3-gram phrases), or a zero average sentence
length; the probe's `try/except` turns each into the zero-score error
result without a `risk_level` key.  On the success path
`structure_similarity` is not clamped below, so the final
`max(0, 100 - ...)` does not bound the score above by 100. -/
def test_linguistic_fingerprinting (original_text anonymized_text : PyStr) :
    ProbeResult :=
  let original_sentences := reSplitTerm false original_text
  let anonymized_sentences := reSplitTerm false anonymized_text
  let original_avg_length : ℚ :=
    ((original_sentences.map (fun s => (pyWords s).length)).sum : ℚ) /
      (original_sentences.length : ℚ)
  let anonymized_avg_length : ℚ :=
    ((anonymized_sentences.map (fun s => (pyWords s).length)).sum : ℚ) /
      (anonymized_sentences.length : ℚ)
  let original_words := ((pyWords original_text).map pyLower).toFinset
  let anonymized_words := ((pyWords anonymized_text).map pyLower).toFinset
  if original_words.card = 0 then
    ⟨0, none, some "Linguistic fingerprinting test failed: division by zero", none⟩
  else
    let vocab_overlap : ℚ :=
      ((original_words ∩ anonymized_words).card : ℚ) / (original_words.card : ℚ)
    let original_phrases := extract_unique_phrases original_text 3
    let anonymized_phrases := extract_unique_phrases anonymized_text 3
    if original_phrases.length = 0 then
      ⟨0, none, some "Linguistic fingerprinting test failed: division by zero", none⟩
    else
      let phrase_overlap : ℚ :=
        ((original_phrases.toFinset ∩ anonymized_phrases.toFinset).card : ℚ) /
          (original_phrases.length : ℚ)
      if original_avg_length = 0 then
        ⟨0, none, some "Linguistic fingerprinting test failed: division by zero", none⟩
      else
        let structure_similarity : ℚ :=
          1 - |original_avg_length - anonymized_avg_length| / original_avg_length
        let fingerprint_score :=
          max 0 (100 - (vocab_overlap * 30 + phrase_overlap * 40 + structure_similarity * 30))
        ⟨fingerprint_score, some (riskOf fingerprint_score), none, none⟩

/-- `SCORING_WEIGHTS["reconstruction_resistance"]` (`config.py` lines 57-63). -/
def SCORING_WEIGHTS_reconstruction_resistance : List (String × ℚ) :=
  [("direct_identifier", 30/100), ("pattern_matching", 25/100),
   ("contextual_reconstruction", 20/100), ("cross_reference", 15/100),
   ("linguistic_fingerprint", 10/100)]

/-- `SCORING_WEIGHTS["strategic_value"]` (`config.py` lines 64-69). -/
def SCORING_WEIGHTS_strategic_value : List (String × ℚ) :=
  [("legal_principle_retention", 40/100), ("educational_value", 30/100),
   ("business_intelligence", 20/100), ("procedural_guidance", 10/100)]

/-- `SCORING_WEIGHTS["overall"]["reconstruction_resistance"]` (`config.py` line 71). -/
def SCORING_WEIGHTS_overall_reconstruction_resistance : ℚ := 60/100

/-- `SCORING_WEIGHTS["overall"]["strategic_value_preservation"]` (`config.py` line 72). -/
def SCORING_WEIGHTS_overall_strategic_value_preservation : ℚ := 40/100

/-- `SCORE_THRESHOLDS` (`config.py` lines 77-83). -/
def SCORE_THRESHOLDS_excellent : ℚ := 90

def SCORE_THRESHOLDS_good : ℚ := 80

def SCORE_THRESHOLDS_acceptable : ℚ := 70

def SCORE_THRESHOLDS_poor : ℚ := 60

/-- `results.get(name, {}).get("score", 0)`: the score of the named probe
result, `0` when the name is absent. -/
def getScoreD (results : List (String × ProbeResult)) (name : String) : ℚ :=
  match results.find? (fun nr => nr.1 = name) with
  | some nr => nr.2.score
  | none => 0

/-- The weighted-sum loop shared by
`ReconstructionTester.calculate_resistance_score`
(`testing_engine.py` lines 313-325) and
`ScoringSystem.calculate_reconstruction_resistance_score`
(`scoring_system.py` lines 65-77), with the weight table (a module-level
configuration dictionary in the source) passed explicitly.  No weight
validation of any kind is performed: the loop simply multiplies and
accumulates whatever weights it is given. -/
def calculate_resistance_score_w (weights : List (String × ℚ))
    (results : List (String × ProbeResult)) : ℚ :=
  (weights.map (fun nw => getScoreD results nw.1 * nw.2)).sum

/-- `calculate_resistance_score` under the default
`SCORING_WEIGHTS["reconstruction_resistance"]` table (display rounding to
two decimals omitted). -/
def calculate_resistance_score (results : List (String × ProbeResult)) : ℚ :=
  calculate_resistance_score_w SCORING_WEIGHTS_reconstruction_resistance results

/-- The quality-tier dictionary returned by
`ScoringSystem.get_quality_level` (`scoring_system.py` lines 281-319). -/
structure QualityLevel where
  level : String
  description : String
  color : String
  recommendation : String
deriving Repr, DecidableEq

/-- `get_quality_level` (`scoring_system.py` lines 281-319): tier lookup
over the fixed `SCORE_THRESHOLDS`. -/
def get_quality_level (score : ℚ) : QualityLevel :=
  if score ≥ SCORE_THRESHOLDS_excellent then
    ⟨"excellent", "Production ready", "green", "Document is ready for use"⟩
  else if score ≥ SCORE_THRESHOLDS_good then
    ⟨"good", "Minor improvements needed", "lightgreen", "Consider minor refinements"⟩
  else if score ≥ SCORE_THRESHOLDS_acceptable then
    ⟨"acceptable", "Requires review", "yellow", "Review and improve before use"⟩
  else if score ≥ SCORE_THRESHOLDS_poor then
    ⟨"poor", "Significant issues", "orange", "Significant improvements required"⟩
  else
    ⟨"failed", "Do not use", "red", "Do not use - major security issues"⟩

/-- The fields of the dictionary returned by
`ScoringSystem.calculate_overall_score` referenced by the specification
(the redundant `score_breakdown` echo of the same numbers is omitted). -/
structure OverallScore where
  success : Bool
  overall_score : ℚ
  reconstruction_resistance_score : ℚ
  strategic_value_score : ℚ
  quality_level : QualityLevel
deriving Repr, DecidableEq

/-- `strategic_value_results.get('strategic_value', 0.0)`. -/
def getStrategicValueD (strategic_value_results : List (String × ℚ)) : ℚ :=
  match strategic_value_results.find? (fun nr => nr.1 = "strategic_value") with
  | some nr => nr.2
  | none => 0

/-- `ScoringSystem.calculate_overall_score` (`scoring_system.py` lines
19-63): resistance score from the probe results, strategic score read
from its results dictionary, overall score by the fixed `overall`
weights, tier by `get_quality_level` (display rounding omitted). -/
def calculate_overall_score (reconstruction_results : List (String × ProbeResult))
    (strategic_value_results : List (String × ℚ)) : OverallScore :=
  let resistance_score := calculate_resistance_score reconstruction_results
  let strategic_score := getStrategicValueD strategic_value_results
  let overall_score :=
    resistance_score * SCORING_WEIGHTS_overall_reconstruction_resistance +
      strategic_score * SCORING_WEIGHTS_overall_strategic_value_preservation
  ⟨true, overall_score, resistance_score, strategic_score, get_quality_level overall_score⟩

/-- The risk-assessment dictionary of
`ReconstructionTester.assess_risk_level` (`testing_engine.py` lines 327-350). -/
structure RiskAssessment where
  high_risk_factors : List String
  medium_risk_factors : List String
  low_risk_factors : List String
  overall_risk : String
deriving Repr, DecidableEq

/-- `result.get("risk_level", "unknown")`. -/
def getRiskD (r : ProbeResult) : String := r.riskLevel.getD "unknown"

/-- `assess_risk_level` (`testing_engine.py` lines 327-350): partition the
probe names by risk level; anything that is neither `"high"` nor
`"medium"` — including the `"unknown"` default of a failed probe — lands
in the low-risk bucket. -/
def assess_risk_level (results : List (String × ProbeResult)) : RiskAssessment :=
  let highs := (results.filter (fun nr => getRiskD nr.2 = "high")).map (fun nr => nr.1)
  let meds := (results.filter (fun nr =>
    getRiskD nr.2 ≠ "high" ∧ getRiskD nr.2 = "medium")).map (fun nr => nr.1)
  let lows := (results.filter (fun nr =>
    getRiskD nr.2 ≠ "high" ∧ getRiskD nr.2 ≠ "medium")).map (fun nr => nr.1)
  ⟨highs, meds, lows,
   if highs ≠ [] then "high" else if meds ≠ [] then "medium" else "low"⟩

/-- `generate_recommendations` (`testing_engine.py` lines 352-386):
per-probe advisory strings for scores below 80 (`results.get(name,
{}).get("score", 100)`), with a default message when nothing triggers. -/
def generate_recommendations (results : List (String × ProbeResult)) : List String :=
  let gs := fun name => match results.find? (fun nr => nr.1 = name) with
    | some nr => nr.2.score
    | none => 100
  let recs :=
    (if gs "direct_identifier" < 80 then
      ["Consider using more aggressive entity replacement strategy",
       "Review entity extraction to catch missed identifiers"] else []) ++
    (if gs "pattern_matching" < 80 then
      ["Replace or generalize unique legal patterns",
       "Consider breaking up distinctive phrase structures"] else []) ++
    (if gs "contextual_reconstruction" < 80 then
      ["Reduce contextual clues that enable reconstruction",
       "Consider more abstract anonymization approach"] else []) ++
    (if gs "cross_reference" < 80 then
      ["Ensure sufficient differentiation from similar documents",
       "Consider additional randomization elements"] else []) ++
    (if gs "linguistic_fingerprint" < 80 then
      ["Vary sentence structure and vocabulary",
       "Consider style transformation in addition to anonymization"] else [])
  if recs = [] then
    ["Anonymization quality is good - no major improvements needed"]
  else recs

/-- The report dictionary of `ReconstructionTester.run_all_tests`
(`testing_engine.py` lines 31-74): the five probe results keyed by name,
the weighted resistance score, the risk assessment and the
recommendations. -/
structure ResistanceReport where
  success : Bool
  strategy : String
  direct_identifier : ProbeResult
  pattern_matching : ProbeResult
  contextual_reconstruction : ProbeResult
  cross_reference : ProbeResult
  linguistic_fingerprint : ProbeResult
  resistance_score : ℚ
  risk_assessment : RiskAssessment
  recommendations : List String
deriving Repr, DecidableEq

/-- The probe-name/result association list in the insertion order of the
source's `results` dictionary. -/
def batteryResults (spacyOut : Except String (List SpacyEnt))
    (legalOut : Except String (List PyStr × List PyStr)) (recon : ReconResult)
    (corpus : List CorpusDoc) (original_text anonymized_text : PyStr) :
    List (String × ProbeResult) :=
  [("direct_identifier", test_direct_identifiers spacyOut anonymized_text),
   ("pattern_matching", test_pattern_matching legalOut original_text anonymized_text),
   ("contextual_reconstruction", test_contextual_reconstruction recon),
   ("cross_reference", test_cross_reference corpus anonymized_text),
   ("linguistic_fingerprint", test_linguistic_fingerprinting original_text anonymized_text)]

/-- `run_all_tests` (`testing_engine.py` lines 31-74), parameterized by
the dependency outcomes consumed by the individual probes (spaCy
entities, legal-pattern extraction, the generation service's
reconstruction attempt, the corpus).  Every probe catches its own
dependency failures, so the battery always reaches the aggregation step
and the outer `try/except` success path. -/
def run_all_tests (spacyOut : Except String (List SpacyEnt))
    (legalOut : Except String (List PyStr × List PyStr)) (recon : ReconResult)
    (corpus : List CorpusDoc) (original_text anonymized_text : PyStr)
    (strategy : String) : ResistanceReport :=
  let results := batteryResults spacyOut legalOut recon corpus original_text anonymized_text
  { success := true
    strategy := strategy
    direct_identifier := test_direct_identifiers spacyOut anonymized_text
    pattern_matching := test_pattern_matching legalOut original_text anonymized_text
    contextual_reconstruction := test_contextual_reconstruction recon
    cross_reference := test_cross_reference corpus anonymized_text
    linguistic_fingerprint := test_linguistic_fingerprinting original_text anonymized_text
    resistance_score := calculate_resistance_score results
    risk_assessment := assess_risk_level results
    recommendations := generate_recommendations results }

/-- `s` is empty or ends in a whitespace character. -/
def endsWS (s : PyStr) : Prop := s = [] ∨ ∃ u c, s = u ++ [c] ∧ c.isWhitespace

/-- `'\n\n'.join(pieces)`: the inverse of `splitPara`. -/
def joinPP : List PyStr → PyStr
  | [] => []
  | [p] => p
  | p :: q :: ps => p ++ nl2 ++ joinPP (q :: ps)

/-- The number of words `get_overlap_text` keeps from an `n`-word text
under overlap budget `ov`: all of them when `n ≤ ov / 2` or `ov / 2 = 0`
(the Python `words[-0:]` slice), otherwise the last `ov / 2`. -/
def ovTailLen (ov n : ℕ) : ℕ := if n ≤ ov / 2 ∨ ov / 2 = 0 then n else ov / 2

/-- The overlap tail of a word sequence: its last `ovTailLen` words. -/
def ovTailWords (ov : ℕ) (ws : List PyStr) : List PyStr :=
  ws.drop (ws.length - ovTailLen ov ws.length)

/-- The overlap tail of a chunk's word sequence. -/
def ovTailOf (ov : ℕ) (c : Chunk) : List PyStr := ovTailWords ov (pyWords c.text)

/-- Chunk adjacency: the next chunk's word sequence starts with the
previous chunk's overlap tail. -/
def Adj (ov : ℕ) (c c' : Chunk) : Prop :=
  ∃ rest, pyWords c'.text = ovTailOf ov c ++ rest

/-- Remove each chunk's leading overlap region (relative to the previous
chunk `prev`) and concatenate the remaining word sequences. -/
def dechunkAux (ov : ℕ) : Chunk → List Chunk → List PyStr
  | _, [] => []
  | prev, c :: rest => (pyWords c.text).drop (ovTailOf ov prev).length ++ dechunkAux ov c rest

/-- The word sequence reassembled from a chunk list: the first chunk's
words followed by every later chunk's words with its leading overlap
region (the previous chunk's overlap tail) removed. -/
def dechunkWords (ov : ℕ) : List Chunk → List PyStr
  | [] => []
  | c :: rest => pyWords c.text ++ dechunkAux ov c rest

/-- What the running buffer still contributes to the reassembled word
sequence: all of its words before the first chunk exists, and its words
beyond the pending overlap region afterwards. -/
def bufRest (ov : ℕ) (chunks : List Chunk) (buf : PyStr) : List PyStr :=
  match chunks with
  | [] => pyWords buf
  | c0 :: rest => (pyWords buf).drop (ovTailOf ov (rest.getLastD c0)).length

/-- Loop invariant of `chunk_text` when every paragraph fits the chunk
budget (so only the paragraph-level branch runs): the buffer ends in
whitespace, the buffer's words start with the pending overlap tail of the
last emitted chunk, consecutive chunks satisfy `Adj`, and the emitted
chunks plus the buffer reassemble exactly the words processed so far. -/
structure PInv (ov : ℕ) (doneWords : List PyStr) (st : CState) : Prop where
  bufEnd : endsWS st.buf
  link : ∀ c0 rest, st.chunks = c0 :: rest →
    ∃ r, pyWords st.buf = ovTailOf ov (rest.getLastD c0) ++ r
  adj : List.Chain' (Adj ov) st.chunks
  acct : dechunkWords ov st.chunks ++ bufRest ov st.chunks st.buf = doneWords

/-- The buffer holds exactly one sentence (of some oversized paragraph of
`t`) that alone exceeds the chunk budget. -/
def OversizedSentenceBuf (t : PyStr) (cs_ : ℕ) (buf : PyStr) (toks : ℕ) : Prop :=
  ∃ p, p ∈ splitPara t ∧ cs_ < count_tokens p ∧ ∃ s, s ∈ split_sentences p ∧
    buf = s ∧ toks = count_tokens s ∧ cs_ < count_tokens s

/-- The first chunk either fits the budget or is a single atomic sentence
of an oversized paragraph that alone exceeds it. -/
def GoodFirst (t : PyStr) (cs_ : ℕ) (c : Chunk) : Prop :=
  c.tokens ≤ cs_ ∨ ∃ p, p ∈ splitPara t ∧ cs_ < count_tokens p ∧ ∃ s, s ∈ split_sentences p ∧
    c.text = s ∧ c.tokens = count_tokens s ∧ cs_ < count_tokens s

/-- Loop invariant for the first-chunk budget property: before any chunk
is emitted, the running estimate fits the budget unless the buffer is a
lone oversized sentence; once a first chunk exists it satisfies
`GoodFirst`. -/
structure FirstInv (t : PyStr) (cs_ : ℕ) (st : CState) : Prop where
  bufZero : st.chunks = [] → st.buf = [] → st.toks = 0
  bufOk : st.chunks = [] → st.toks ≤ cs_ ∨ OversizedSentenceBuf t cs_ st.buf st.toks
  firstOk : ∀ c l, st.chunks = c :: l → GoodFirst t cs_ c

/-- The risk tier, when the result carries one, matches the fixed
thresholds: `high` iff `score < 70`, `medium` iff `70 ≤ score < 90`,
`low` iff `score ≥ 90`. -/
def RiskTierMatches (r : ProbeResult) : Prop :=
  ∀ tier, r.riskLevel = some tier →
    ((tier = "high" ↔ r.score < 70) ∧
     (tier = "medium" ↔ 70 ≤ r.score ∧ r.score < 90) ∧
     (tier = "low" ↔ 90 ≤ r.score))

theorem pyWordsAux_ws_cons (cur : PyStr) {c : Char} (h : c.isWhitespace) (cs : PyStr) :
    pyWordsAux cur (c :: cs) = (if cur = [] then [] else [cur]) ++ pyWordsAux [] cs := by
  by_cases hc : cur = [] <;> simp [pyWordsAux, h, hc]

theorem pyWordsAux_append_ws (xs : PyStr) : ∀ cur ys (c : Char), c.isWhitespace →
    pyWordsAux cur (xs ++ c :: ys) = pyWordsAux cur xs ++ pyWords ys := by
  induction xs with
  | nil =>
    intro cur ys c h
    rw [List.nil_append, pyWordsAux_ws_cons cur h ys]
    by_cases hc : cur = [] <;> simp [pyWordsAux, hc, pyWords]
  | cons x xs ih =>
    intro cur ys c h
    by_cases hx : x.isWhitespace
    · rw [List.cons_append, pyWordsAux_ws_cons cur hx, pyWordsAux_ws_cons cur hx, ih [] ys c h,
        List.append_assoc]
    · simp only [List.cons_append, pyWordsAux, hx, Bool.false_eq_true, if_false]
      exact ih (cur ++ [x]) ys c h

theorem pyWords_append_ws (xs ys : PyStr) {c : Char} (h : c.isWhitespace) :
    pyWords (xs ++ c :: ys) = pyWords xs ++ pyWords ys :=
  pyWordsAux_append_ws xs [] ys c h

theorem pyWords_ws_cons {c : Char} (h : c.isWhitespace) (cs : PyStr) :
    pyWords (c :: cs) = pyWords cs := by
  simp [pyWords, pyWordsAux_ws_cons [] h cs]

theorem pyWords_nil_of_all_ws {s : PyStr} (h : ∀ c ∈ s, c.isWhitespace) :
    pyWords s = [] := by
  induction s with
  | nil => rfl
  | cons c cs ih =>
    rw [pyWords_ws_cons (h c (by simp)) cs]
    exact ih fun d hd => h d (by simp [hd])

theorem pyWords_nil : pyWords [] = [] := rfl

theorem pyWords_append_all_ws {r : PyStr} (h : ∀ c ∈ r, c.isWhitespace) (a : PyStr) :
    pyWords (a ++ r) = pyWords a := by
  induction r generalizing a with
  | nil => simp
  | cons c cs ih =>
    rw [pyWords_append_ws a cs (h c (by simp)),
      pyWords_nil_of_all_ws (s := cs) fun d hd => h d (by simp [hd]), List.append_nil]

theorem pyWords_append_of_endsWS {a : PyStr} (h : endsWS a) (b : PyStr) :
    pyWords (a ++ b) = pyWords a ++ pyWords b := by
  rcases h with rfl | ⟨u, c, rfl, hc⟩
  · simp [pyWords_nil]
  · rw [List.append_assoc, List.singleton_append, pyWords_append_ws u b hc,
      pyWords_append_all_ws (r := [c]) (by simpa using hc) u]

theorem pyWords_dropWS (s : PyStr) : pyWords (dropWS s) = pyWords s := by
  induction s with
  | nil => rfl
  | cons c cs ih =>
    by_cases h : c.isWhitespace
    · rw [dropWS, if_pos h, ih, pyWords_ws_cons h]
    · rw [dropWS, if_neg h]

theorem dropEndWS_decomp (s : PyStr) :
    ∃ r, s = dropEndWS s ++ r ∧ ∀ c ∈ r, c.isWhitespace = true := by
  induction s with
  | nil => exact ⟨[], rfl, by simp⟩
  | cons c cs ih =>
    rcases ih with ⟨r, hr, hws⟩
    by_cases h : dropEndWS cs = [] ∧ c.isWhitespace
    · refine ⟨c :: r, ?_, ?_⟩
      · rw [dropEndWS]
        simp only [h, and_self, if_true, List.nil_append]
        rw [hr, h.1, List.nil_append]
      · intro d hd
        rcases List.mem_cons.mp hd with rfl | hd
        · exact h.2
        · exact hws d hd
    · refine ⟨r, ?_, hws⟩
      rw [dropEndWS]
      simp only [h, if_false]
      rw [List.cons_append, ← hr]

theorem pyWords_dropEndWS (s : PyStr) : pyWords (dropEndWS s) = pyWords s := by
  rcases dropEndWS_decomp s with ⟨r, hr, hws⟩
  conv_rhs => rw [hr]
  rw [pyWords_append_all_ws hws]

theorem pyWords_pyStrip (s : PyStr) : pyWords (pyStrip s) = pyWords s := by
  rw [pyStrip, pyWords_dropEndWS, pyWords_dropWS]

theorem dropWS_head_not_ws (s : PyStr) :
    dropWS s = [] ∨ ∃ a t, dropWS s = a :: t ∧ a.isWhitespace = false := by
  induction s with
  | nil => exact Or.inl rfl
  | cons c cs ih =>
    by_cases h : c.isWhitespace
    · rw [dropWS, if_pos h]; exact ih
    · exact Or.inr ⟨c, cs, by rw [dropWS, if_neg h], by simpa using h⟩

theorem dropEndWS_idem (s : PyStr) : dropEndWS (dropEndWS s) = dropEndWS s := by
  induction s with
  | nil => rfl
  | cons c cs ih =>
    by_cases h : dropEndWS cs = [] ∧ c.isWhitespace
    · rw [dropEndWS]; simp only [h, and_self, if_true]; rfl
    · rw [dropEndWS]
      simp only [h, if_false]
      rw [dropEndWS]
      simp only [ih, h, if_false]

theorem dropEndWS_cons_not_ws {a : Char} (h : a.isWhitespace = false) (t : PyStr) :
    dropEndWS (a :: t) = a :: dropEndWS t := by
  rw [dropEndWS]
  simp [h]

theorem pyStrip_idem (s : PyStr) : pyStrip (pyStrip s) = pyStrip s := by
  rw [pyStrip, pyStrip]
  rcases dropWS_head_not_ws s with h | ⟨a, t, ht, ha⟩
  · rw [h]; rfl
  · rw [ht, dropEndWS_cons_not_ws ha, dropWS, if_neg (by simp [ha]),
      ← dropEndWS_cons_not_ws ha, dropEndWS_idem]

/-- Every word produced by `pyWords` is non-empty and whitespace-free. -/
theorem pyWordsAux_sound (t : PyStr) : ∀ cur, (∀ c ∈ cur, c.isWhitespace = false) →
    ∀ w ∈ pyWordsAux cur t, w ≠ [] ∧ ∀ c ∈ w, c.isWhitespace = false := by
  induction t with
  | nil =>
    intro cur hcur w hw
    rw [pyWordsAux] at hw
    by_cases hc : cur = []
    · simp [hc] at hw
    · simp only [hc, if_false, List.mem_singleton] at hw
      exact ⟨hw ▸ hc, hw ▸ hcur⟩
  | cons c cs ih =>
    intro cur hcur w hw
    rw [pyWordsAux] at hw
    by_cases h : c.isWhitespace
    · simp only [h, if_true] at hw
      by_cases hc : cur = []
      · simp only [hc, if_true] at hw
        exact ih [] (by simp) w hw
      · simp only [hc, if_false, List.mem_cons] at hw
        rcases hw with rfl | hw
        · exact ⟨hc, hcur⟩
        · exact ih [] (by simp) w hw
    · simp only [h, if_false] at hw
      refine ih (cur ++ [c]) ?_ w hw
      intro d hd
      rcases List.mem_append.mp hd with hd | hd
      · exact hcur d hd
      · simp only [List.mem_singleton] at hd
        subst hd
        simpa using h

theorem pyWords_sound (t : PyStr) :
    ∀ w ∈ pyWords t, w ≠ [] ∧ ∀ c ∈ w, c.isWhitespace = false :=
  pyWordsAux_sound t [] (by simp)

theorem pyWordsAux_no_ws {w : PyStr} (h : ∀ c ∈ w, c.isWhitespace = false) :
    ∀ cur, pyWordsAux cur w = if cur ++ w = [] then [] else [cur ++ w] := by
  induction w with
  | nil => intro cur; simp [pyWordsAux]
  | cons c cs ih =>
    intro cur
    rw [pyWordsAux]
    simp only [h c (by simp), Bool.false_eq_true, if_false]
    rw [ih (fun d hd => h d (by simp [hd])) (cur ++ [c])]
    simp

/-- A single non-empty whitespace-free word splits to itself. -/
theorem pyWords_single_word {w : PyStr} (hne : w ≠ [])
    (h : ∀ c ∈ w, c.isWhitespace = false) : pyWords w = [w] := by
  rw [pyWords, pyWordsAux_no_ws h []]
  simp [hne]

/-- Splitting `' '.join(words) + ' '` recovers exactly the words, provided
they are non-empty and whitespace-free (as `pyWords` outputs are). -/
theorem pyWords_joinSpace_space (ws : List PyStr)
    (h : ∀ w ∈ ws, w ≠ [] ∧ ∀ c ∈ w, c.isWhitespace = false) :
    pyWords (joinSpace ws ++ [' ']) = ws := by
  induction ws with
  | nil => rfl
  | cons w vs ih =>
    rcases vs with _ | ⟨v, vs'⟩
    · rw [joinSpace, pyWords_append_ws w [] (by decide), pyWords_nil, List.append_nil,
        pyWords_single_word (h w (by simp)).1 (h w (by simp)).2]
    · rw [joinSpace, List.append_assoc, List.cons_append, pyWords_append_ws w _ (by decide),
        pyWords_single_word (h w (by simp)).1 (h w (by simp)).2,
        ih fun u hu => h u (List.mem_cons_of_mem w hu)]
      rfl

theorem splitPara_ne_nil (t : PyStr) : splitPara t ≠ [] := by
  induction t using splitPara.induct with
  | case1 => simp [splitPara]
  | case2 c => simp [splitPara]
  | case3 c d rest h ih => rw [splitPara, if_pos h]; simp
  | case4 c d rest h hs ih => rw [splitPara, if_neg h, hs]; simp
  | case5 c d rest h p ps hs ih => rw [splitPara, if_neg h, hs]; simp

theorem splitPara_join (t : PyStr) : joinPP (splitPara t) = t := by
  induction t using splitPara.induct with
  | case1 => rfl
  | case2 c => rfl
  | case3 c d rest h ih =>
    rw [splitPara, if_pos h]
    rcases hs : splitPara rest with _ | ⟨q, qs⟩
    · exact absurd hs (splitPara_ne_nil rest)
    · rw [hs] at ih
      rw [joinPP, List.nil_append, ← ih]
      rcases h with ⟨rfl, rfl⟩
      rfl
  | case4 c d rest h hs ih => exact absurd hs (splitPara_ne_nil _)
  | case5 c d rest h p ps hs ih =>
    rw [splitPara, if_neg h, hs, hs] at *
    rcases ps with _ | ⟨q, qs⟩
    · rw [joinPP] at ih ⊢
      rw [ih]
    · rw [joinPP] at ih ⊢
      rw [List.cons_append, List.cons_append, ih]

theorem pyWords_joinPP (ps : List PyStr) : pyWords (joinPP ps) = ps.flatMap pyWords := by
  induction ps with
  | nil => rfl
  | cons p qs ih =>
    rcases qs with _ | ⟨q, qs'⟩
    · simp [joinPP, pyWords_nil]
    · rw [joinPP, List.append_assoc,
        show nl2 ++ joinPP (q :: qs') = '\n' :: ('\n' :: joinPP (q :: qs')) from rfl,
        pyWords_append_ws p _ (by decide), pyWords_ws_cons (by decide), ih]
      simp

/-- The word sequence of a text is the concatenation of the word
sequences of its paragraphs. -/
theorem pyWords_splitPara (t : PyStr) : (splitPara t).flatMap pyWords = pyWords t := by
  conv_rhs => rw [← splitPara_join t]
  rw [pyWords_joinPP]

theorem pyWords_get_overlap_text (b : PyStr) (ov : ℕ) :
    pyWords (get_overlap_text b ov) = ovTailWords ov (pyWords b) := by
  rw [get_overlap_text, ovTailWords, ovTailLen]
  by_cases hle : (pyWords b).length ≤ ov / 2
  · rw [if_pos hle, if_pos (Or.inl hle), Nat.sub_self, List.drop_zero]
  · rw [if_neg hle]
    by_cases hz : ov / 2 = 0
    · rw [if_pos hz, if_pos (Or.inr hz), Nat.sub_self, List.drop_zero,
        pyWords_joinSpace_space _ (fun w hw => pyWords_sound b w hw)]
    · rw [if_neg hz, if_neg (by push_neg; exact ⟨Nat.lt_of_not_le hle, hz⟩),
        pyWords_joinSpace_space _ (fun w hw => pyWords_sound b w (List.mem_of_mem_drop hw))]

theorem endsWS_append_nl2 (x : PyStr) : endsWS (x ++ nl2) :=
  Or.inr ⟨x ++ ['\n'], '\n', by simp [nl2], by decide⟩

theorem endsWS_get_overlap_text {b : PyStr} (hb : endsWS b) (ov : ℕ) :
    endsWS (get_overlap_text b ov) := by
  rw [get_overlap_text]
  by_cases hle : (pyWords b).length ≤ ov / 2
  · rw [if_pos hle]; exact hb
  · rw [if_neg hle]
    exact Or.inr ⟨_, ' ', rfl, by decide⟩

theorem nl2_all_ws : ∀ c ∈ nl2, c.isWhitespace = true := by decide

/-- Words of an append-step buffer `b ++ p ++ "\n\n"`. -/
theorem words_seed {b : PyStr} (hb : endsWS b) (p : PyStr) :
    pyWords (b ++ p ++ nl2) = pyWords b ++ pyWords p := by
  rw [pyWords_append_all_ws nl2_all_ws (b ++ p), pyWords_append_of_endsWS hb p]

theorem getLastD_concat_chunk (l : List Chunk) (c x : Chunk) :
    (l ++ [c]).getLastD x = c := by
  induction l generalizing x with
  | nil => rfl
  | cons y l ih => rw [List.cons_append, List.getLastD_cons, ih]

theorem dechunkAux_append (ov : ℕ) (l : List Chunk) : ∀ (prev c : Chunk),
    dechunkAux ov prev (l ++ [c]) =
      dechunkAux ov prev l ++ (pyWords c.text).drop (ovTailOf ov (l.getLastD prev)).length := by
  induction l with
  | nil => intro prev c; simp [dechunkAux]
  | cons c' l ih =>
    intro prev c
    rw [List.cons_append, dechunkAux, dechunkAux, ih c' c, List.append_assoc, List.getLastD_cons]

theorem dechunkWords_append (ov : ℕ) (l : List Chunk) (c : Chunk) :
    dechunkWords ov (l ++ [c]) =
      dechunkWords ov l ++
        (match l with
         | [] => pyWords c.text
         | c0 :: rest => (pyWords c.text).drop (ovTailOf ov (rest.getLastD c0)).length) := by
  rcases l with _ | ⟨c0, rest⟩
  · simp [dechunkWords, dechunkAux]
  · rw [List.cons_append, dechunkWords, dechunkWords, dechunkAux_append ov rest c0 c,
      List.append_assoc]

theorem lastD_of_concat {l : List Chunk} {c c0 : Chunk} {rest : List Chunk}
    (h : l ++ [c] = c0 :: rest) : rest.getLastD c0 = c := by
  rcases l with _ | ⟨x, xs⟩
  · rw [List.nil_append, List.cons.injEq] at h
    rcases h with ⟨rfl, rfl⟩
    rfl
  · rw [List.cons_append, List.cons.injEq] at h
    rcases h with ⟨rfl, h2⟩
    rw [← h2, getLastD_concat_chunk]

theorem getLast?_cons_chunk (c0 : Chunk) (rest : List Chunk) :
    (c0 :: rest).getLast? = some (rest.getLastD c0) := by
  induction rest generalizing c0 with
  | nil => rfl
  | cons x xs ih => rw [List.getLast?_cons_cons, ih x, List.getLastD_cons]

theorem getLastD_nil_chunk (c : Chunk) : ([] : List Chunk).getLastD c = c := rfl

/-- The close-and-seed transition of `chunk_text` preserves the invariant
(for any recorded token count and chunk id). -/
theorem PInv_close {ov : ℕ} {done : List PyStr} {st : CState} (h : PInv ov done st)
    (p : PyStr) (tk id_ : ℕ) :
    PInv ov (done ++ pyWords p)
      ⟨st.chunks ++ [⟨pyStrip st.buf, st.toks, id_⟩],
       get_overlap_text st.buf ov ++ p ++ nl2, tk⟩ := by
  have wc : pyWords (pyStrip st.buf) = pyWords st.buf := pyWords_pyStrip st.buf
  have hend : endsWS (get_overlap_text st.buf ov) := endsWS_get_overlap_text h.bufEnd ov
  have hwords : pyWords (get_overlap_text st.buf ov ++ p ++ nl2) =
      ovTailOf ov ⟨pyStrip st.buf, st.toks, id_⟩ ++ pyWords p := by
    rw [words_seed hend p, pyWords_get_overlap_text]
    show ovTailWords ov (pyWords st.buf) ++ pyWords p =
      ovTailWords ov (pyWords (pyStrip st.buf)) ++ pyWords p
    rw [wc]
  constructor
  · exact endsWS_append_nl2 _
  · intro c0 rest hchunks
    show ∃ r, pyWords (get_overlap_text st.buf ov ++ p ++ nl2) =
      ovTailOf ov (rest.getLastD c0) ++ r
    rw [lastD_of_concat hchunks]
    exact ⟨pyWords p, hwords⟩
  · show List.Chain' (Adj ov) (st.chunks ++ [⟨pyStrip st.buf, st.toks, id_⟩])
    rw [List.chain'_append]
    refine ⟨h.adj, List.chain'_singleton _, ?_⟩
    intro x hx y hy
    rcases hch : st.chunks with _ | ⟨c0, rest⟩
    · rw [hch] at hx
      simp at hx
    · rw [hch, getLast?_cons_chunk] at hx
      rw [List.head?_cons, Option.mem_some_iff] at hy
      rw [Option.mem_some_iff] at hx
      subst hy
      subst hx
      obtain ⟨r, hr⟩ := h.link c0 rest hch
      refine ⟨r, ?_⟩
      show pyWords (pyStrip st.buf) = ovTailOf ov (rest.getLastD c0) ++ r
      rw [wc, hr]
  · show dechunkWords ov (st.chunks ++ [⟨pyStrip st.buf, st.toks, id_⟩]) ++
      bufRest ov (st.chunks ++ [⟨pyStrip st.buf, st.toks, id_⟩])
        (get_overlap_text st.buf ov ++ p ++ nl2) = done ++ pyWords p
    rw [dechunkWords_append]
    have hacct := h.acct
    rcases hch : st.chunks with _ | ⟨c0, rest⟩
    · dsimp only
      rw [hch] at hacct
      have hbr : bufRest ov [(⟨pyStrip st.buf, st.toks, id_⟩ : Chunk)]
          (get_overlap_text st.buf ov ++ p ++ nl2) = pyWords p := by
        show (pyWords (get_overlap_text st.buf ov ++ p ++ nl2)).drop
          (ovTailOf ov (([] : List Chunk).getLastD ⟨pyStrip st.buf, st.toks, id_⟩)).length
          = pyWords p
        rw [getLastD_nil_chunk, hwords, List.drop_left]
      have hnil : dechunkWords ov ([] : List Chunk) = [] := rfl
      have hbuf : bufRest ov [] st.buf = pyWords st.buf := rfl
      rw [hnil, hbuf, List.nil_append] at hacct
      rw [List.nil_append, hbr, hnil, List.nil_append, wc, hacct]
    · dsimp only
      rw [hch] at hacct
      obtain ⟨r, hr⟩ := h.link c0 rest hch
      have hbuf : bufRest ov (c0 :: rest) st.buf = r := by
        show (pyWords st.buf).drop (ovTailOf ov (rest.getLastD c0)).length = r
        rw [hr, List.drop_left]
      rw [hbuf] at hacct
      have hstep : (pyWords (pyStrip st.buf)).drop
          (ovTailOf ov (rest.getLastD c0)).length = r := by
        rw [wc, hr, List.drop_left]
      have hbr : bufRest ov (c0 :: (rest ++ [(⟨pyStrip st.buf, st.toks, id_⟩ : Chunk)]))
          (get_overlap_text st.buf ov ++ p ++ nl2) = pyWords p := by
        show (pyWords (get_overlap_text st.buf ov ++ p ++ nl2)).drop
          (ovTailOf ov ((rest ++ [(⟨pyStrip st.buf, st.toks, id_⟩ : Chunk)]).getLastD c0)).length
          = pyWords p
        rw [getLastD_concat_chunk, hwords, List.drop_left]
      rw [List.cons_append, hbr, hstep, ← hacct]

/-- The plain-append transition of `chunk_text` preserves the invariant
(for any recorded token count). -/
theorem PInv_append {ov : ℕ} {done : List PyStr} {st : CState} (h : PInv ov done st)
    (p : PyStr) (tk : ℕ) :
    PInv ov (done ++ pyWords p) ⟨st.chunks, st.buf ++ p ++ nl2, tk⟩ := by
  have hw : pyWords (st.buf ++ p ++ nl2) = pyWords st.buf ++ pyWords p :=
    words_seed h.bufEnd p
  constructor
  · exact endsWS_append_nl2 _
  · intro c0 rest hchunks
    obtain ⟨r, hr⟩ := h.link c0 rest hchunks
    show ∃ r', pyWords (st.buf ++ p ++ nl2) = ovTailOf ov (rest.getLastD c0) ++ r'
    exact ⟨r ++ pyWords p, by rw [hw, hr, List.append_assoc]⟩
  · exact h.adj
  · show dechunkWords ov st.chunks ++ bufRest ov st.chunks (st.buf ++ p ++ nl2) =
      done ++ pyWords p
    have hacct := h.acct
    rcases hch : st.chunks with _ | ⟨c0, rest⟩
    · rw [hch] at hacct
      have hnil : dechunkWords ov ([] : List Chunk) = [] := rfl
      have h1 : bufRest ov [] st.buf = pyWords st.buf := rfl
      have h2 : bufRest ov [] (st.buf ++ p ++ nl2) = pyWords (st.buf ++ p ++ nl2) := rfl
      rw [hnil, h1, List.nil_append] at hacct
      rw [hnil, h2, hw, List.nil_append, hacct]
    · rw [hch] at hacct
      obtain ⟨r, hr⟩ := h.link c0 rest hch
      have h1 : bufRest ov (c0 :: rest) st.buf = r := by
        show (pyWords st.buf).drop (ovTailOf ov (rest.getLastD c0)).length = r
        rw [hr, List.drop_left]
      have h2 : bufRest ov (c0 :: rest) (st.buf ++ p ++ nl2) = r ++ pyWords p := by
        show (pyWords (st.buf ++ p ++ nl2)).drop (ovTailOf ov (rest.getLastD c0)).length =
          r ++ pyWords p
        rw [hw, hr, List.append_assoc, List.drop_left]
      rw [h1] at hacct
      rw [h2, ← hacct, List.append_assoc]

/-- `paraStep` preserves the invariant when the paragraph fits the
budget. -/
theorem PInv_paraStep {cs_ ov : ℕ} {done : List PyStr} {st : CState}
    (h : PInv ov done st) {p : PyStr} (hp : count_tokens p ≤ cs_) :
    PInv ov (done ++ pyWords p) (paraStep cs_ ov st p) := by
  rw [paraStep, if_neg (by omega)]
  by_cases hc : st.toks + count_tokens p > cs_ ∧ st.buf ≠ []
  · rw [if_pos hc]
    exact PInv_close h p _ _
  · rw [if_neg hc]
    exact PInv_append h p _

/-- Folding the paragraph loop over budget-respecting paragraphs
preserves the invariant, extending the processed word sequence. -/
theorem PInv_foldl {cs_ ov : ℕ} :
    ∀ (ps : List PyStr) (done : List PyStr) (st : CState),
      (∀ p ∈ ps, count_tokens p ≤ cs_) → PInv ov done st →
      PInv ov (done ++ ps.flatMap pyWords) (ps.foldl (paraStep cs_ ov) st) := by
  intro ps
  induction ps with
  | nil => intro done st _ h; simpa using h
  | cons p ps ih =>
    intro done st hp h
    rw [List.foldl_cons, List.flatMap_cons, ← List.append_assoc]
    exact ih (done ++ pyWords p) (paraStep cs_ ov st p)
      (fun q hq => hp q (List.mem_cons_of_mem p hq))
      (PInv_paraStep h (hp p (List.mem_cons_self p ps)))

/-- The invariant at the end of the paragraph loop, for texts all of
whose paragraphs fit the chunk budget. -/
theorem chunk_text_PInv (t : PyStr) (cs_ ov : ℕ)
    (hp : ∀ p ∈ splitPara t, count_tokens p ≤ cs_) :
    PInv ov (pyWords t) ((splitPara t).foldl (paraStep cs_ ov) ⟨[], [], 0⟩) := by
  have base : PInv ov [] ⟨[], [], 0⟩ := by
    refine ⟨Or.inl rfl, ?_, List.chain'_nil, rfl⟩
    intro c0 rest h
    cases h
  have h := PInv_foldl (splitPara t) [] ⟨[], [], 0⟩ hp base
  rw [List.nil_append, pyWords_splitPara] at h
  exact h

/-- The final flush keeps the reassembled word sequence. -/
theorem dechunk_chunkFinal {ov : ℕ} {done : List PyStr} {st : CState}
    (h : PInv ov done st) : dechunkWords ov (chunkFinal st) = done := by
  rw [chunkFinal]
  by_cases hb : pyStrip st.buf ≠ []
  · rw [if_pos hb, dechunkWords_append]
    have hacct := h.acct
    have wc : pyWords (pyStrip st.buf) = pyWords st.buf := pyWords_pyStrip st.buf
    rcases hch : st.chunks with _ | ⟨c0, rest⟩
    · rw [hch] at hacct
      have hnil : dechunkWords ov ([] : List Chunk) = [] := rfl
      have hbuf : bufRest ov [] st.buf = pyWords st.buf := rfl
      rw [hnil, hbuf, List.nil_append] at hacct
      dsimp only
      rw [hnil, List.nil_append, wc, hacct]
    · rw [hch] at hacct
      obtain ⟨r, hr⟩ := h.link c0 rest hch
      have hbuf : bufRest ov (c0 :: rest) st.buf = r := by
        show (pyWords st.buf).drop (ovTailOf ov (rest.getLastD c0)).length = r
        rw [hr, List.drop_left]
      rw [hbuf] at hacct
      dsimp only
      rw [wc, hr, List.drop_left, hacct]
  · rw [if_neg hb]
    push_neg at hb
    have hw : pyWords st.buf = [] := by
      rw [← pyWords_pyStrip, hb, pyWords_nil]
    have hacct := h.acct
    rcases hch : st.chunks with _ | ⟨c0, rest⟩
    · rw [hch] at hacct
      have hbuf : bufRest ov [] st.buf = pyWords st.buf := rfl
      rw [hbuf, hw, List.append_nil] at hacct
      exact hacct
    · rw [hch] at hacct
      have hbuf : bufRest ov (c0 :: rest) st.buf =
          (pyWords st.buf).drop (ovTailOf ov (rest.getLastD c0)).length := rfl
      rw [hbuf, hw, List.drop_nil, List.append_nil] at hacct
      exact hacct

/-- The final flush keeps the adjacency chain. -/
theorem adj_chunkFinal {ov : ℕ} {done : List PyStr} {st : CState}
    (h : PInv ov done st) : List.Chain' (Adj ov) (chunkFinal st) := by
  rw [chunkFinal]
  by_cases hb : pyStrip st.buf ≠ []
  · rw [if_pos hb, List.chain'_append]
    refine ⟨h.adj, List.chain'_singleton _, ?_⟩
    intro x hx y hy
    rcases hch : st.chunks with _ | ⟨c0, rest⟩
    · rw [hch] at hx
      simp at hx
    · rw [hch, getLast?_cons_chunk] at hx
      rw [List.head?_cons, Option.mem_some_iff] at hy
      rw [Option.mem_some_iff] at hx
      subst hy
      subst hx
      obtain ⟨r, hr⟩ := h.link c0 rest hch
      refine ⟨r, ?_⟩
      show pyWords (pyStrip st.buf) = ovTailOf ov (rest.getLastD c0) ++ r
      rw [pyWords_pyStrip, hr]
  · rw [if_neg hb]
    exact h.adj

theorem split_sentences_ne_nil {p s : PyStr} (h : s ∈ split_sentences p) : s ≠ [] := by
  rw [split_sentences] at h
  simpa using (List.mem_filter.mp h).2

theorem split_sentences_stripped {p s : PyStr} (h : s ∈ split_sentences p) :
    pyStrip s = s := by
  rw [split_sentences] at h
  obtain ⟨u, _, rfl⟩ := List.mem_map.mp (List.mem_filter.mp h).1
  exact pyStrip_idem u

theorem firstOk_after_close {t : PyStr} {cs_ : ℕ} {st : CState}
    (h : FirstInv t cs_ st) (id_ : ℕ) :
    ∀ c l, st.chunks ++ [(⟨pyStrip st.buf, st.toks, id_⟩ : Chunk)] = c :: l →
      GoodFirst t cs_ c := by
  intro c l hcl
  rcases hch : st.chunks with _ | ⟨c0, l0⟩
  · rw [hch, List.nil_append, List.cons.injEq] at hcl
    rcases h.bufOk hch with htk | ⟨p0, hp0, hpt0, s0, hs0, hb, htk0, hbig0⟩
    · exact Or.inl (by rw [← hcl.1]; exact htk)
    · refine Or.inr ⟨p0, hp0, hpt0, s0, hs0, ?_, ?_, hbig0⟩
      · rw [← hcl.1]
        show pyStrip st.buf = s0
        rw [hb, split_sentences_stripped hs0]
      · rw [← hcl.1]
        exact htk0
  · rw [hch, List.cons_append, List.cons.injEq] at hcl
    rw [← hcl.1]
    exact h.firstOk c0 l0 hch

theorem FirstInv_sentStep {t : PyStr} {cs_ ov : ℕ} {p : PyStr}
    (hp : p ∈ splitPara t) (hpt : cs_ < count_tokens p) {st : CState} {s : PyStr}
    (hs : s ∈ split_sentences p) (h : FirstInv t cs_ st) :
    FirstInv t cs_ (sentStep cs_ ov st s) := by
  rw [sentStep]
  by_cases hc : st.toks + count_tokens s > cs_ ∧ st.buf ≠ []
  · rw [if_pos hc]
    refine ⟨?_, ?_, ?_⟩
    · intro _ habs
      exact absurd (List.append_eq_nil.mp habs).2 (split_sentences_ne_nil hs)
    · intro habs
      simp at habs
    · exact firstOk_after_close h _
  · rw [if_neg hc]
    refine ⟨?_, ?_, ?_⟩
    · intro _ habs
      exact absurd (List.append_eq_nil.mp habs).2 (split_sentences_ne_nil hs)
    · intro hch
      dsimp only
      by_cases hbuf : st.buf = []
      · have h0 := h.bufZero hch hbuf
        by_cases hcs : count_tokens s ≤ cs_
        · exact Or.inl (by omega)
        · refine Or.inr ⟨p, hp, hpt, s, hs, ?_, by omega, by omega⟩
          show st.buf ++ s = s
          rw [hbuf, List.nil_append]
      · have hle : ¬(st.toks + count_tokens s > cs_) := fun hgt => hc ⟨hgt, hbuf⟩
        exact Or.inl (by omega)
    · exact fun c l hcl => h.firstOk c l hcl

theorem FirstInv_sentFold {t : PyStr} {cs_ ov : ℕ} {p : PyStr}
    (hp : p ∈ splitPara t) (hpt : cs_ < count_tokens p) :
    ∀ (ss : List PyStr), (∀ s ∈ ss, s ∈ split_sentences p) → ∀ st, FirstInv t cs_ st →
      FirstInv t cs_ (ss.foldl (sentStep cs_ ov) st) := by
  intro ss
  induction ss with
  | nil => intro _ st h; exact h
  | cons s ss ih =>
    intro hss st h
    rw [List.foldl_cons]
    exact ih (fun u hu => hss u (List.mem_cons_of_mem s hu))
      (sentStep cs_ ov st s)
      (FirstInv_sentStep hp hpt (hss s (List.mem_cons_self s ss)) h)

theorem FirstInv_paraStep {t : PyStr} {cs_ ov : ℕ} {p : PyStr}
    (hp : p ∈ splitPara t) {st : CState} (h : FirstInv t cs_ st) :
    FirstInv t cs_ (paraStep cs_ ov st p) := by
  rw [paraStep]
  by_cases hbig : count_tokens p > cs_
  · rw [if_pos hbig]
    exact FirstInv_sentFold hp hbig (split_sentences p) (fun s hs => hs) st h
  · rw [if_neg hbig]
    by_cases hc : st.toks + count_tokens p > cs_ ∧ st.buf ≠ []
    · rw [if_pos hc]
      refine ⟨?_, ?_, ?_⟩
      · intro _ habs
        have := (List.append_eq_nil.mp habs).2
        simp [nl2] at this
      · intro habs
        simp at habs
      · exact firstOk_after_close h _
    · rw [if_neg hc]
      refine ⟨?_, ?_, ?_⟩
      · intro _ habs
        have := (List.append_eq_nil.mp habs).2
        simp [nl2] at this
      · intro hch
        dsimp only
        by_cases hbuf : st.buf = []
        · have h0 := h.bufZero hch hbuf
          exact Or.inl (by omega)
        · have hle : ¬(st.toks + count_tokens p > cs_) := fun hgt => hc ⟨hgt, hbuf⟩
          exact Or.inl (by omega)
      · exact fun c l hcl => h.firstOk c l hcl

theorem FirstInv_foldl {t : PyStr} {cs_ ov : ℕ} :
    ∀ (ps : List PyStr), (∀ p ∈ ps, p ∈ splitPara t) → ∀ st, FirstInv t cs_ st →
      FirstInv t cs_ (ps.foldl (paraStep cs_ ov) st) := by
  intro ps
  induction ps with
  | nil => intro _ st h; exact h
  | cons p ps ih =>
    intro hps st h
    rw [List.foldl_cons]
    exact ih (fun q hq => hps q (List.mem_cons_of_mem p hq))
      (paraStep cs_ ov st p)
      (FirstInv_paraStep (hps p (List.mem_cons_self p ps)) h)

/-- The first chunk emitted by `chunk_text` fits the budget unless it is
a single atomic sentence of an oversized paragraph. -/
theorem chunk_text_first (t : PyStr) (cs_ ov : ℕ) :
    ∀ c l, chunk_text t cs_ ov = c :: l → GoodFirst t cs_ c := by
  have base : FirstInv t cs_ ⟨[], [], 0⟩ :=
    ⟨fun _ _ => rfl, fun _ => Or.inl (Nat.zero_le _), fun c l h => by cases h⟩
  have hfold := @FirstInv_foldl t cs_ ov (splitPara t) (fun p hp => hp)
    ⟨[], [], 0⟩ base
  intro c l hcl
  rw [chunk_text, chunkFinal] at hcl
  by_cases hb : pyStrip ((splitPara t).foldl (paraStep cs_ ov) ⟨[], [], 0⟩).buf ≠ []
  · rw [if_pos hb] at hcl
    exact firstOk_after_close hfold _ c l hcl
  · rw [if_neg hb] at hcl
    exact hfold.firstOk c l hcl

theorem riskOf_spec (s : ℚ) (e m : Option String) :
    RiskTierMatches ⟨s, some (riskOf s), e, m⟩ := by
  intro tier htier
  dsimp only at htier ⊢
  rw [Option.some.injEq] at htier
  subst htier
  rw [riskOf]
  by_cases h1 : s < 70
  · rw [if_pos h1]
    exact ⟨iff_of_true rfl h1,
      iff_of_false (by decide) (fun h => by linarith [h.1]),
      iff_of_false (by decide) (fun h => by linarith)⟩
  · rw [if_neg h1]
    by_cases h2 : s < 90
    · rw [if_pos h2]
      exact ⟨iff_of_false (by decide) (fun h => h1 h),
        iff_of_true rfl ⟨not_lt.mp h1, h2⟩,
        iff_of_false (by decide) (fun h => by linarith)⟩
    · rw [if_neg h2]
      exact ⟨iff_of_false (by decide) (fun h => h1 h),
        iff_of_false (by decide) (fun h => by linarith [h.2]),
        iff_of_true rfl (not_lt.mp h2)⟩

theorem riskNone_matches (s : ℚ) (e m : Option String) :
    RiskTierMatches ⟨s, none, e, m⟩ := by
  intro tier htier
  dsimp only at htier
  cases htier

theorem calculate_similarity_comm (a b : PyStr) :
    calculate_similarity a b = calculate_similarity b a := by
  dsimp only [calculate_similarity]
  rw [Finset.inter_comm, Finset.union_comm]

theorem calculate_similarity_nonneg (a b : PyStr) : 0 ≤ calculate_similarity a b := by
  dsimp only [calculate_similarity]
  split_ifs
  · exact le_refl 0
  · positivity

theorem calculate_similarity_le_one (a b : PyStr) : calculate_similarity a b ≤ 1 := by
  dsimp only [calculate_similarity]
  split_ifs with h
  · norm_num
  · refine div_le_one_of_le₀ ?_ (by positivity)
    exact_mod_cast Finset.card_le_card (Finset.inter_subset_union)

theorem maxBySimilarity_bounds {lo hi : ℚ} :
    ∀ (l : List (String × ℚ)) (x : String × ℚ), lo ≤ x.2 → x.2 ≤ hi →
      (∀ y ∈ l, lo ≤ y.2 ∧ y.2 ≤ hi) →
      lo ≤ (maxBySimilarity x l).2 ∧ (maxBySimilarity x l).2 ≤ hi := by
  intro l
  induction l with
  | nil => intro x h1 h2 _; exact ⟨h1, h2⟩
  | cons y ys ih =>
    intro x h1 h2 hall
    rw [maxBySimilarity]
    by_cases hgt : y.2 > x.2
    · rw [if_pos hgt]
      exact ih y (hall y (List.mem_cons_self y ys)).1 (hall y (List.mem_cons_self y ys)).2
        (fun z hz => hall z (List.mem_cons_of_mem y hz))
    · rw [if_neg hgt]
      exact ih x h1 h2 (fun z hz => hall z (List.mem_cons_of_mem y hz))

theorem maxBySimilarity_snd :
    ∀ (l : List (String × ℚ)) (x : String × ℚ),
      (maxBySimilarity x l).2 = l.foldl (fun a y => max a y.2) x.2 := by
  intro l
  induction l with
  | nil => intro x; rfl
  | cons y ys ih =>
    intro x
    rw [maxBySimilarity, List.foldl_cons]
    by_cases hgt : y.2 > x.2
    · rw [if_pos hgt, ih y, max_eq_right (le_of_lt hgt)]
    · rw [if_neg hgt, ih x, max_eq_left (not_lt.mp hgt)]

theorem pyWordsAux_eq_nil {t : PyStr} :
    ∀ {cur}, pyWordsAux cur t = [] → cur = [] ∧ ∀ c ∈ t, c.isWhitespace = true := by
  induction t with
  | nil =>
    intro cur h
    rw [pyWordsAux] at h
    by_cases hc : cur = []
    · exact ⟨hc, by simp⟩
    · rw [if_neg hc] at h
      cases h
  | cons c cs ih =>
    intro cur h
    rw [pyWordsAux] at h
    by_cases hws : c.isWhitespace
    · rw [if_pos hws] at h
      by_cases hc : cur = []
      · rw [if_pos hc] at h
        obtain ⟨_, hall⟩ := ih h
        refine ⟨hc, ?_⟩
        intro d hd
        rcases List.mem_cons.mp hd with rfl | hd
        · exact hws
        · exact hall d hd
      · rw [if_neg hc] at h
        cases h
    · rw [if_neg hws] at h
      obtain ⟨habs, _⟩ := ih h
      simp at habs

theorem toLower_ws_fixed {c : Char} (h : c.isWhitespace = true) : c.toLower = c := by
  have h2 : c = ' ' ∨ c = '\t' ∨ c = '\r' ∨ c = '\n' := by
    simp only [Char.isWhitespace, Bool.or_eq_true, decide_eq_true_eq] at h
    tauto
  rcases h2 with rfl | rfl | rfl | rfl <;> decide

theorem pyLower_eq_of_words_nil {a : PyStr} (h : pyWords a = []) : pyLower a = a := by
  have hall := (pyWordsAux_eq_nil h).2
  rw [pyLower]
  calc a.map Char.toLower = a.map id :=
        List.map_congr_left (fun c hc => toLower_ws_fixed (hall c hc))
    _ = a := List.map_id a

theorem clamp_bounds {x : ℚ} (hx : 0 ≤ x) :
    0 ≤ max 0 (100 - x) ∧ max 0 (100 - x) ≤ 100 :=
  ⟨le_max_left 0 _, max_le (by norm_num) (by linarith)⟩

theorem clamp2_le {x y : ℚ} (hx : 0 ≤ x) (hy : 0 ≤ y) : max 0 (100 - x - y) ≤ 100 :=
  max_le (by norm_num) (by linarith)

theorem test_direct_identifiers_bounds (so : Except String (List SpacyEnt)) (anon : PyStr) :
    0 ≤ (test_direct_identifiers so anon).score ∧
      (test_direct_identifiers so anon).score ≤ 100 ∧
      RiskTierMatches (test_direct_identifiers so anon) := by
  dsimp only [test_direct_identifiers]
  refine ⟨?_, ?_, riskOf_spec _ _ _⟩ <;> split_ifs
  · exact (clamp_bounds (by positivity)).1
  · norm_num
  · exact (clamp_bounds (by positivity)).2
  · norm_num

theorem test_pattern_matching_bounds (legalOut : Except String (List PyStr × List PyStr))
    (o a : PyStr) :
    0 ≤ (test_pattern_matching legalOut o a).score ∧
      (test_pattern_matching legalOut o a).score ≤ 100 ∧
      RiskTierMatches (test_pattern_matching legalOut o a) := by
  rcases legalOut with e | ⟨op, ap⟩
  · exact ⟨le_refl 0, by show (0:ℚ) ≤ 100; norm_num, riskNone_matches _ _ _⟩
  · dsimp only [test_pattern_matching]
    refine ⟨?_, ?_, riskOf_spec _ _ _⟩ <;> split_ifs
    · exact (clamp_bounds (by positivity)).1
    · norm_num
    · exact (clamp_bounds (by positivity)).2
    · norm_num

theorem test_contextual_reconstruction_bounds (recon : ReconResult) :
    0 ≤ (test_contextual_reconstruction recon).score ∧
      (test_contextual_reconstruction recon).score ≤ 100 ∧
      RiskTierMatches (test_contextual_reconstruction recon) := by
  dsimp only [test_contextual_reconstruction]
  split_ifs
  · exact ⟨le_refl 0, by show (0:ℚ) ≤ 100; norm_num, riskNone_matches _ _ _⟩
  · exact ⟨le_max_left 0 _, clamp2_le (by positivity) (by positivity), riskOf_spec _ _ _⟩

theorem test_cross_reference_bounds (corpus : List CorpusDoc) (a : PyStr) :
    0 ≤ (test_cross_reference corpus a).score ∧
      (test_cross_reference corpus a).score ≤ 100 ∧
      RiskTierMatches (test_cross_reference corpus a) := by
  rcases corpus with _ | ⟨d, ds⟩
  · refine ⟨by show (0:ℚ) ≤ 100; norm_num, by show (100:ℚ) ≤ 100; norm_num, ?_⟩
    show RiskTierMatches ⟨100, some "low", none, some "No corpus available for cross-reference testing"⟩
    rw [show ("low" : String) = riskOf 100 from by decide]
    exact riskOf_spec _ _ _
  · dsimp only [test_cross_reference]
    have hm := @maxBySimilarity_bounds 0 1
      (ds.map (fun doc => (doc.filename, calculate_similarity a doc.text)))
      (d.filename, calculate_similarity a d.text)
      (calculate_similarity_nonneg a d.text) (calculate_similarity_le_one a d.text)
      (by
        intro y hy
        obtain ⟨doc, _, rfl⟩ := List.mem_map.mp hy
        exact ⟨calculate_similarity_nonneg a doc.text, calculate_similarity_le_one a doc.text⟩)
    refine ⟨le_max_left 0 _, ?_, riskOf_spec _ _ _⟩
    exact (clamp_bounds (by nlinarith [hm.1])).2

theorem test_linguistic_fingerprinting_lower (o a : PyStr) :
    0 ≤ (test_linguistic_fingerprinting o a).score ∧
      RiskTierMatches (test_linguistic_fingerprinting o a) := by
  dsimp only [test_linguistic_fingerprinting]
  split_ifs
  · exact ⟨le_refl 0, riskNone_matches _ _ _⟩
  · exact ⟨le_refl 0, riskNone_matches _ _ _⟩
  · exact ⟨le_refl 0, riskNone_matches _ _ _⟩
  · exact ⟨le_max_left 0 _, riskOf_spec _ _ _⟩

/-- C1 (amended): every Probe Result produced by the five probe
operations has `score ≥ 0`; the direct-identifier, pattern-matching,
contextual-reconstruction and cross-reference probes also bound the score
above by 100; and whenever a result carries a risk tier (all success
paths do; the zero-score failure paths carry no `risk_level` key), the
tier is `high` iff `score < 70`, `medium` iff `70 ≤ score < 90` and
`low` iff `score ≥ 90`.  The linguistic-fingerprinting probe does not
bound its score above by 100 (its `structure_similarity` term is not
clamped below), so the original claim's `score ∈ [0,100]` fails for that
probe — see the counterexample. -/
theorem C1_probe_bounds_amended :
    (∀ so anon, 0 ≤ (test_direct_identifiers so anon).score ∧
      (test_direct_identifiers so anon).score ≤ 100 ∧
      RiskTierMatches (test_direct_identifiers so anon)) ∧
    (∀ legalOut o a, 0 ≤ (test_pattern_matching legalOut o a).score ∧
      (test_pattern_matching legalOut o a).score ≤ 100 ∧
      RiskTierMatches (test_pattern_matching legalOut o a)) ∧
    (∀ recon, 0 ≤ (test_contextual_reconstruction recon).score ∧
      (test_contextual_reconstruction recon).score ≤ 100 ∧
      RiskTierMatches (test_contextual_reconstruction recon)) ∧
    (∀ corpus a, 0 ≤ (test_cross_reference corpus a).score ∧
      (test_cross_reference corpus a).score ≤ 100 ∧
      RiskTierMatches (test_cross_reference corpus a)) ∧
    (∀ o a, 0 ≤ (test_linguistic_fingerprinting o a).score ∧
      RiskTierMatches (test_linguistic_fingerprinting o a)) :=
  ⟨test_direct_identifiers_bounds, test_pattern_matching_bounds,
   test_contextual_reconstruction_bounds, test_cross_reference_bounds,
   test_linguistic_fingerprinting_lower⟩

/-- The linguistic-fingerprinting score on the success path (no division
by zero), spelled out. -/
theorem lf_score_success (o a : PyStr)
    (h1 : ¬(((pyWords o).map pyLower).toFinset.card = 0))
    (h2 : ¬((extract_unique_phrases o 3).length = 0))
    (h3 : ¬((((reSplitTerm false o).map (fun s => (pyWords s).length)).sum : ℚ) /
      ((reSplitTerm false o).length : ℚ) = 0)) :
    (test_linguistic_fingerprinting o a).score =
      max 0 (100 -
        ((((((pyWords o).map pyLower).toFinset ∩ ((pyWords a).map pyLower).toFinset).card : ℚ) /
            (((pyWords o).map pyLower).toFinset.card : ℚ)) * 30 +
         ((((extract_unique_phrases o 3).toFinset ∩ (extract_unique_phrases a 3).toFinset).card : ℚ) /
            ((extract_unique_phrases o 3).length : ℚ)) * 40 +
         (1 - |(((reSplitTerm false o).map (fun s => (pyWords s).length)).sum : ℚ) /
                ((reSplitTerm false o).length : ℚ) -
              (((reSplitTerm false a).map (fun s => (pyWords s).length)).sum : ℚ) /
                ((reSplitTerm false a).length : ℚ)| /
            ((((reSplitTerm false o).map (fun s => (pyWords s).length)).sum : ℚ) /
              ((reSplitTerm false o).length : ℚ))) * 30)) := by
  dsimp only [test_linguistic_fingerprinting]
  rw [if_neg h1, if_neg h2, if_neg h3]

/-- C1 counterexample: on this concrete input (original text with
average sentence length 4/3 words, anonymized text a single 30-word
sentence) the linguistic-fingerprinting probe returns score 715, because
`structure_similarity = 1 - |4/3 - 30|/(4/3) = -20.5` is not clamped, so
`100 - (0*30 + 0*40 + (-20.5)*30) = 715 > 100`, refuting the claim that
every probe score lies in `[0,100]`. -/
theorem C1_counterexample :
    (test_linguistic_fingerprinting (pystr "a b c. d.")
      (pystr "x x x x x x x x x x x x x x x x x x x x x x x x x x x x x x")).score = 715 ∧
    ¬((715 : ℚ) ≤ 100) := by
  constructor
  · have h3 : ¬((((reSplitTerm false (pystr "a b c. d.")).map (fun s => (pyWords s).length)).sum : ℚ) /
        ((reSplitTerm false (pystr "a b c. d.")).length : ℚ) = 0) := by
      rw [show ((reSplitTerm false (pystr "a b c. d.")).map (fun s => (pyWords s).length)).sum = 4
          from by decide,
        show (reSplitTerm false (pystr "a b c. d.")).length = 3 from by decide]
      push_cast
      norm_num
    rw [lf_score_success _ _ (by decide) (by decide) h3]
    rw [show ((((pyWords (pystr "a b c. d.")).map pyLower).toFinset ∩
          ((pyWords (pystr "x x x x x x x x x x x x x x x x x x x x x x x x x x x x x x")).map
            pyLower).toFinset).card) = 0 from by decide,
      show (((pyWords (pystr "a b c. d.")).map pyLower).toFinset.card) = 4 from by decide,
      show (((extract_unique_phrases (pystr "a b c. d.") 3).toFinset ∩
          (extract_unique_phrases
            (pystr "x x x x x x x x x x x x x x x x x x x x x x x x x x x x x x") 3).toFinset).card)
        = 0 from by decide,
      show ((extract_unique_phrases (pystr "a b c. d.") 3).length) = 2 from by decide,
      show ((reSplitTerm false (pystr "a b c. d.")).map (fun s => (pyWords s).length)).sum = 4
        from by decide,
      show (reSplitTerm false (pystr "a b c. d.")).length = 3 from by decide,
      show ((reSplitTerm false
          (pystr "x x x x x x x x x x x x x x x x x x x x x x x x x x x x x x")).map
            (fun s => (pyWords s).length)).sum = 30 from by decide,
      show (reSplitTerm false
          (pystr "x x x x x x x x x x x x x x x x x x x x x x x x x x x x x x")).length = 1
        from by decide]
    push_cast
    rw [abs_of_nonpos (by norm_num), max_eq_right (by norm_num)]
    norm_num
  · norm_num

/-- Witness for C1: the amended theorem applied to a concrete input
(direct-identifier probe with no entities): score 100 within bounds and
tier `low` consistent with `score ≥ 90`. -/
theorem C1_witness :
    0 ≤ (test_direct_identifiers (.ok []) (pystr "x")).score ∧
    (test_direct_identifiers (.ok []) (pystr "x")).score ≤ 100 ∧
    ("low" = "low" ↔ 90 ≤ (test_direct_identifiers (.ok []) (pystr "x")).score) := by
  obtain ⟨h1, _, _, _, _⟩ := C1_probe_bounds_amended
  obtain ⟨ha, hb, hc⟩ := h1 (.ok []) (pystr "x")
  exact ⟨ha, hb, (hc "low" (by decide)).2.2⟩

/-- C2 counterexample: a failed generation-service call makes the
contextual-reconstruction probe return score 0, but the returned
dictionary has no `risk_level` key at all (modelled as `none`) — not the
risk tier `"high"` asserted by the claim. -/
theorem C2_counterexample :
    (test_contextual_reconstruction ⟨false, [], "Request failed: timeout", 0⟩).score = 0 ∧
    (test_contextual_reconstruction ⟨false, [], "Request failed: timeout", 0⟩).riskLevel = none ∧
    (test_contextual_reconstruction ⟨false, [], "Request failed: timeout", 0⟩).riskLevel ≠
      some "high" :=
  ⟨rfl, rfl, by decide⟩

/-- C2 (amended): when the external generation service fails or times
out, the contextual-reconstruction probe returns a Probe Result with
score 0 carrying the failure reason as evidence but no risk tier (no
`risk_level` key); the failure does not propagate — `run_all_tests`
still succeeds and produces the other four probes' results unchanged —
and the risk assessment counts the failed probe among the low-risk
factors (via its `"unknown"` default).  Likewise a signal extractor
error raised into the pattern probe yields score 0 with no risk tier. -/
theorem C2_failed_probe_amended (so : Except String (List SpacyEnt))
    (legalOut : Except String (List PyStr × List PyStr)) (recon : ReconResult)
    (corpus : List CorpusDoc) (o a : PyStr) (strat : String)
    (hfail : recon.success = false) :
    (run_all_tests so legalOut recon corpus o a strat).contextual_reconstruction =
      ⟨0, none, some recon.error, none⟩ ∧
    (run_all_tests so legalOut recon corpus o a strat).success = true ∧
    (run_all_tests so legalOut recon corpus o a strat).direct_identifier =
      test_direct_identifiers so a ∧
    (run_all_tests so legalOut recon corpus o a strat).pattern_matching =
      test_pattern_matching legalOut o a ∧
    (run_all_tests so legalOut recon corpus o a strat).cross_reference =
      test_cross_reference corpus a ∧
    (run_all_tests so legalOut recon corpus o a strat).linguistic_fingerprint =
      test_linguistic_fingerprinting o a ∧
    "contextual_reconstruction" ∈
      (run_all_tests so legalOut recon corpus o a strat).risk_assessment.low_risk_factors ∧
    (∀ e, legalOut = .error e →
      (run_all_tests so legalOut recon corpus o a strat).pattern_matching.score = 0 ∧
      (run_all_tests so legalOut recon corpus o a strat).pattern_matching.riskLevel = none) := by
  have hctx : test_contextual_reconstruction recon = ⟨0, none, some recon.error, none⟩ := by
    dsimp only [test_contextual_reconstruction]
    rw [if_pos hfail]
  refine ⟨hctx, rfl, rfl, rfl, rfl, rfl, ?_, ?_⟩
  · show "contextual_reconstruction" ∈
      (assess_risk_level (batteryResults so legalOut recon corpus o a)).low_risk_factors
    dsimp only [assess_risk_level]
    refine List.mem_map.mpr
      ⟨("contextual_reconstruction", test_contextual_reconstruction recon),
       List.mem_filter.mpr ⟨?_, ?_⟩, rfl⟩
    · simp [batteryResults]
    · rw [hctx]
      simp [getRiskD]
  · intro e he
    subst he
    exact ⟨rfl, rfl⟩

/-- Witness for C2: the amended theorem applied to a concrete failing
service result. -/
theorem C2_witness :
    (run_all_tests (.ok []) (.ok ([], [])) ⟨false, [], "Request failed: timeout", 0⟩ []
      (pystr "o") (pystr "a") "strategic").contextual_reconstruction =
      ⟨0, none, some "Request failed: timeout", none⟩ ∧
    "contextual_reconstruction" ∈
      (run_all_tests (.ok []) (.ok ([], [])) ⟨false, [], "Request failed: timeout", 0⟩ []
        (pystr "o") (pystr "a") "strategic").risk_assessment.low_risk_factors := by
  have h := C2_failed_probe_amended (.ok []) (.ok ([], []))
    ⟨false, [], "Request failed: timeout", 0⟩ [] (pystr "o") (pystr "a") "strategic" rfl
  exact ⟨h.1, h.2.2.2.2.2.2.1⟩

/-- C3 counterexample: with `chunk_size = 3`, `overlap = 2` and two
paragraphs of 3 estimated tokens each, the second chunk is seeded with
the whole previous chunk as overlap plus the next paragraph, and is
flushed with a recorded estimate of 7 tokens — over the budget of 3 —
although its text is not a single atomic sentence of the input (the only
sentences are the two bare paragraphs). -/
theorem C3_counterexample :
    chunk_text (pystr "Wwwwwwwwwwww\n\nYyyyyyyyyyyy") 3 2 =
      [⟨pystr "Wwwwwwwwwwww", 3, 0⟩, ⟨pystr "Wwwwwwwwwwww\n\nYyyyyyyyyyyy", 7, 1⟩] ∧
    3 < (7 : ℕ) ∧
    (∀ p ∈ splitPara (pystr "Wwwwwwwwwwww\n\nYyyyyyyyyyyy"),
      ∀ s ∈ split_sentences p, pystr "Wwwwwwwwwwww\n\nYyyyyyyyyyyy" ≠ s) := by
  refine ⟨by decide, by decide, by decide⟩

/-- C3 (amended): the budget bound holds for the FIRST chunk — its
recorded token estimate fits `chunk_size` unless the chunk is a single
atomic sentence (of a paragraph exceeding the budget) that alone exceeds
it.  Chunks after the first can exceed the budget whenever the overlap
seed plus the next unit does (see the counterexample), so the original
universally quantified bound fails. -/
theorem C3_first_chunk_amended (t : PyStr) (cs_ ov : ℕ) (c : Chunk) (l : List Chunk)
    (h : chunk_text t cs_ ov = c :: l) :
    c.tokens ≤ cs_ ∨
      ∃ p, p ∈ splitPara t ∧ cs_ < count_tokens p ∧ ∃ s, s ∈ split_sentences p ∧
        c.text = s ∧ c.tokens = count_tokens s ∧ cs_ < count_tokens s :=
  chunk_text_first t cs_ ov c l h

/-- Witness for C3: the amended theorem applied to a one-chunk run. -/
theorem C3_witness :
    (⟨pystr "Hello world", 2, 0⟩ : Chunk).tokens ≤ 100 ∨
      ∃ p, p ∈ splitPara (pystr "Hello world") ∧ 100 < count_tokens p ∧
        ∃ s, s ∈ split_sentences p ∧ (⟨pystr "Hello world", 2, 0⟩ : Chunk).text = s ∧
          (⟨pystr "Hello world", 2, 0⟩ : Chunk).tokens = count_tokens s ∧
          100 < count_tokens s :=
  C3_first_chunk_amended (pystr "Hello world") 100 10 ⟨pystr "Hello world", 2, 0⟩ []
    (by decide)

/-- C4 counterexample: a paragraph over the budget is split into
sentences, which are then concatenated back WITHOUT a separator
(`current_chunk += sentence`), fusing `"bb."` and `"Cc"` into the single
word `"bb.Cc"`; the resulting single chunk does not reproduce the
original word sequence. -/
theorem C4_counterexample :
    dechunkWords 0 (chunk_text (pystr "Aa bb. Cc dd.") 2 0) ≠
      pyWords (pystr "Aa bb. Cc dd.") := by
  decide

/-- C4 (amended): for every text all of whose paragraphs fit the chunk
budget (so the sentence-level path with its separator-dropping
concatenation is never taken), concatenating the chunks with each
chunk's leading overlap region removed reconstructs the original text's
word sequence exactly. -/
theorem C4_reassembly_amended (t : PyStr) (cs_ ov : ℕ)
    (hp : ∀ p ∈ splitPara t, count_tokens p ≤ cs_) :
    dechunkWords ov (chunk_text t cs_ ov) = pyWords t :=
  dechunk_chunkFinal (chunk_text_PInv t cs_ ov hp)

/-- Witness for C4: the amended theorem applied to a two-chunk run with
a one-word overlap. -/
theorem C4_witness :
    (∀ p ∈ splitPara (pystr "aaaa bbbb\n\ncccc dddd"), count_tokens p ≤ 3) ∧
    dechunkWords 2 (chunk_text (pystr "aaaa bbbb\n\ncccc dddd") 3 2) =
      pyWords (pystr "aaaa bbbb\n\ncccc dddd") :=
  ⟨by decide, C4_reassembly_amended (pystr "aaaa bbbb\n\ncccc dddd") 3 2 (by decide)⟩

/-- C5 counterexample: with overlap budget 2 the overlap tail is
`words[-1:]` — the last ⌊2/2⌋ = 1 word — regardless of its estimated
token count; here the single 12-character word duplicated at the head of
chunk 2 comes from an overlap region whose token estimate is 3 > 2, so
the overlap is NOT "the trailing words whose cumulative estimated tokens
do not exceed the overlap budget" and its estimate exceeds the budget. -/
theorem C5_counterexample :
    chunk_text (pystr "Mmmmmmmmmmmm\n\nNnnnnnnnnnnn") 3 2 =
      [⟨pystr "Mmmmmmmmmmmm", 3, 0⟩, ⟨pystr "Mmmmmmmmmmmm\n\nNnnnnnnnnnnn", 7, 1⟩] ∧
    (pyWords (pystr "Mmmmmmmmmmmm\n\nNnnnnnnnnnnn")).take 1 =
      pyWords (pystr "Mmmmmmmmmmmm") ∧
    2 < count_tokens (get_overlap_text (pystr "Mmmmmmmmmmmm\n\n") 2) := by
  refine ⟨by decide, by decide, by decide⟩

/-- C5 (amended): for every chunking run in which no paragraph exceeds
the chunk budget, every chunk after the first begins, word for word,
with the previous chunk's overlap tail — its last `⌊overlap/2⌋` words,
or all of its words when it has at most that many or `⌊overlap/2⌋ = 0`
(the `words[-0:]` slice).  The tail is selected by word count, not by
cumulative token estimate, and its estimated token count can exceed the
overlap budget (see the counterexample). -/
theorem C5_overlap_amended (t : PyStr) (cs_ ov : ℕ)
    (hp : ∀ p ∈ splitPara t, count_tokens p ≤ cs_) :
    List.Chain' (Adj ov) (chunk_text t cs_ ov) :=
  adj_chunkFinal (chunk_text_PInv t cs_ ov hp)

/-- Witness for C5: the amended theorem applied to a two-chunk run. -/
theorem C5_witness :
    List.Chain' (Adj 2) (chunk_text (pystr "eeee ffff\n\ngggg hhhh") 3 2) :=
  C5_overlap_amended (pystr "eeee ffff\n\ngggg hhhh") 3 2 (by decide)

theorem get_quality_level_level (x : ℚ) :
    (get_quality_level x).level =
      (if (90:ℚ) ≤ x then "excellent" else if (80:ℚ) ≤ x then "good"
       else if (70:ℚ) ≤ x then "acceptable" else if (60:ℚ) ≤ x then "poor"
       else "failed") := by
  rw [get_quality_level]
  simp only [ge_iff_le, SCORE_THRESHOLDS_excellent, SCORE_THRESHOLDS_good,
    SCORE_THRESHOLDS_acceptable, SCORE_THRESHOLDS_poor]
  split_ifs <;> rfl

/-- C6 (confirmed): `calculate_overall_score` combines the resistance
score and the strategic-value score with the default weights 0.60/0.40
and maps the overall score to a quality tier by the fixed thresholds
(excellent ≥ 90, good ≥ 80, acceptable ≥ 70, poor ≥ 60, else failed);
with all five probe scores 87.5 (resistance 87.5) and strategic value
75.0 the overall score is 82.5 and the tier is `good`. -/
theorem C6_overall_score :
    (∀ rr sv,
      (calculate_overall_score rr sv).overall_score =
        (calculate_overall_score rr sv).reconstruction_resistance_score * (60/100) +
        (calculate_overall_score rr sv).strategic_value_score * (40/100) ∧
      (calculate_overall_score rr sv).quality_level.level =
        (if (90:ℚ) ≤ (calculate_overall_score rr sv).overall_score then "excellent"
         else if (80:ℚ) ≤ (calculate_overall_score rr sv).overall_score then "good"
         else if (70:ℚ) ≤ (calculate_overall_score rr sv).overall_score then "acceptable"
         else if (60:ℚ) ≤ (calculate_overall_score rr sv).overall_score then "poor"
         else "failed")) ∧
    (calculate_overall_score
        [("direct_identifier", ⟨175/2, some "medium", none, none⟩),
         ("pattern_matching", ⟨175/2, some "medium", none, none⟩),
         ("contextual_reconstruction", ⟨175/2, some "medium", none, none⟩),
         ("cross_reference", ⟨175/2, some "medium", none, none⟩),
         ("linguistic_fingerprint", ⟨175/2, some "medium", none, none⟩)]
        [("strategic_value", 75)]).reconstruction_resistance_score = 175/2 ∧
    (calculate_overall_score
        [("direct_identifier", ⟨175/2, some "medium", none, none⟩),
         ("pattern_matching", ⟨175/2, some "medium", none, none⟩),
         ("contextual_reconstruction", ⟨175/2, some "medium", none, none⟩),
         ("cross_reference", ⟨175/2, some "medium", none, none⟩),
         ("linguistic_fingerprint", ⟨175/2, some "medium", none, none⟩)]
        [("strategic_value", 75)]).overall_score = 165/2 ∧
    (calculate_overall_score
        [("direct_identifier", ⟨175/2, some "medium", none, none⟩),
         ("pattern_matching", ⟨175/2, some "medium", none, none⟩),
         ("contextual_reconstruction", ⟨175/2, some "medium", none, none⟩),
         ("cross_reference", ⟨175/2, some "medium", none, none⟩),
         ("linguistic_fingerprint", ⟨175/2, some "medium", none, none⟩)]
        [("strategic_value", 75)]).quality_level.level = "good" := by
  have hres : calculate_resistance_score
      [("direct_identifier", (⟨175/2, some "medium", none, none⟩ : ProbeResult)),
       ("pattern_matching", ⟨175/2, some "medium", none, none⟩),
       ("contextual_reconstruction", ⟨175/2, some "medium", none, none⟩),
       ("cross_reference", ⟨175/2, some "medium", none, none⟩),
       ("linguistic_fingerprint", ⟨175/2, some "medium", none, none⟩)] = 175/2 := by
    show (175/2 : ℚ) * (30/100) +
      ((175/2 : ℚ) * (25/100) +
        ((175/2 : ℚ) * (20/100) +
          ((175/2 : ℚ) * (15/100) + ((175/2 : ℚ) * (10/100) + 0)))) = 175/2
    norm_num
  have hstrat : getStrategicValueD [("strategic_value", (75:ℚ))] = 75 := rfl
  refine ⟨fun rr sv => ⟨rfl, get_quality_level_level _⟩, ?_, ?_, ?_⟩
  · exact hres
  · show calculate_resistance_score _ * SCORING_WEIGHTS_overall_reconstruction_resistance +
      getStrategicValueD _ * SCORING_WEIGHTS_overall_strategic_value_preservation = 165/2
    rw [hres, hstrat]
    norm_num [SCORING_WEIGHTS_overall_reconstruction_resistance,
      SCORING_WEIGHTS_overall_strategic_value_preservation]
  · show (get_quality_level
      (calculate_resistance_score _ * SCORING_WEIGHTS_overall_reconstruction_resistance +
        getStrategicValueD _ * SCORING_WEIGHTS_overall_strategic_value_preservation)).level = "good"
    rw [hres, hstrat, get_quality_level_level]
    have hval : (175/2 : ℚ) * SCORING_WEIGHTS_overall_reconstruction_resistance +
        (75:ℚ) * SCORING_WEIGHTS_overall_strategic_value_preservation = 165/2 := by
      norm_num [SCORING_WEIGHTS_overall_reconstruction_resistance,
        SCORING_WEIGHTS_overall_strategic_value_preservation]
    rw [hval, if_neg (by norm_num), if_pos (by norm_num)]

/-- C7 counterexample: a configured probe-weight set summing to 0.5 — not
1 — is silently consumed by the resistance-score computation, which
returns the weighted sum 50 for an all-100 probe result instead of
failing: no validation of the weight sets exists anywhere in the code. -/
theorem C7_counterexample :
    (([("direct_identifier", (1:ℚ)/2)].map (fun nw => nw.2)).sum ≠ 1) ∧
    calculate_resistance_score_w [("direct_identifier", (1:ℚ)/2)]
      [("direct_identifier", ⟨100, some "low", none, none⟩)] = 50 := by
  constructor
  · show (1:ℚ)/2 + 0 ≠ 1
    norm_num
  · show (100:ℚ) * (1/2) + 0 = 50
    norm_num

/-- C7 (amended): the three default weight sets of `SCORING_WEIGHTS`
each sum to 1, but no validation is performed at construction or
anywhere else: the weighted-sum loop accepts any weight table whatsoever
and simply multiplies and accumulates (a weight set not summing to 1 is
silently used during scoring — see the counterexample). -/
theorem C7_weights_amended :
    (SCORING_WEIGHTS_reconstruction_resistance.map (fun nw => nw.2)).sum = 1 ∧
    (SCORING_WEIGHTS_strategic_value.map (fun nw => nw.2)).sum = 1 ∧
    SCORING_WEIGHTS_overall_reconstruction_resistance +
      SCORING_WEIGHTS_overall_strategic_value_preservation = 1 ∧
    (∀ w res, calculate_resistance_score_w w res =
      (w.map (fun nw => getScoreD res nw.1 * nw.2)).sum) := by
  refine ⟨?_, ?_, ?_, fun w res => rfl⟩
  · show (30:ℚ)/100 + (25/100 + (20/100 + (15/100 + (10/100 + 0)))) = 1
    norm_num
  · show (40:ℚ)/100 + (30/100 + (20/100 + (10/100 + 0))) = 1
    norm_num
  · show (60:ℚ)/100 + 40/100 = 1
    norm_num

theorem direct_score_empty (so : Except String (List SpacyEnt)) (anon : PyStr)
    (h : allEntityTexts so = []) : (test_direct_identifiers so anon).score = 100 := by
  dsimp only [test_direct_identifiers]
  rw [if_neg (by simp [h])]

theorem direct_score_formula (so : Except String (List SpacyEnt)) (anon : PyStr)
    (h : allEntityTexts so ≠ []) :
    (test_direct_identifiers so anon).score =
      100 * (1 -
        (((allEntityTexts so).filter (fun e => pyContains (pyLower anon) e)).length : ℚ) /
        ((allEntityTexts so).length : ℚ)) := by
  dsimp only [test_direct_identifiers]
  rw [if_pos h]
  have hle : ((allEntityTexts so).filter (fun e => pyContains (pyLower anon) e)).length ≤
      (allEntityTexts so).length := List.length_filter_le _ _
  have hpos : 0 < ((allEntityTexts so).length : ℚ) := by
    exact_mod_cast List.length_pos.mpr h
  have hdiv : (((allEntityTexts so).filter (fun e => pyContains (pyLower anon) e)).length : ℚ) /
      ((allEntityTexts so).length : ℚ) ≤ 1 := by
    rw [div_le_one hpos]
    exact_mod_cast hle
  rw [max_eq_right (by nlinarith)]
  ring

/-- C8 counterexample: the probe counts entity OCCURRENCES of the
flattened per-category list, not distinct entity strings.  Here spaCy
returns a PERSON entity (landing in both the `legal` and `personal`
categories) and a DATE entity (in `temporal` only), so the flattened
list is `["smith", "smith", "may 2020"]`; with only `"smith"` leaked the
code scores `100·(1 − 2/3) = 100/3`, while the claim's formula over the
two distinct entity strings with one leaked gives `100·(1 − 1/2) = 50`. -/
theorem C8_counterexample :
    (test_direct_identifiers (.ok [⟨pystr "Smith", "PERSON"⟩, ⟨pystr "May 2020", "DATE"⟩])
      (pystr "smith sued her")).score = 100/3 ∧
    (100 : ℚ)/3 ≠ 100 * (1 - 1/2) := by
  constructor
  · rw [direct_score_formula _ _ (by decide),
      show ((allEntityTexts (.ok [⟨pystr "Smith", "PERSON"⟩, ⟨pystr "May 2020", "DATE"⟩])).filter
        (fun e => pyContains (pyLower (pystr "smith sued her")) e)).length = 2 from by decide,
      show (allEntityTexts
        (.ok [⟨pystr "Smith", "PERSON"⟩, ⟨pystr "May 2020", "DATE"⟩])).length = 3 from by decide]
    push_cast
    norm_num
  · norm_num

/-- C8 (amended): `test_direct_identifiers` scores
`100 · (1 − leaked/total)` over the FLATTENED per-category entity
occurrence list (an entity is counted once per category containing its
label, and repeated mentions count separately), where an occurrence is
leaked iff its lowercased text occurs verbatim in the lowercased
anonymized text; it returns 100 when no entities were extracted.  In the
end-to-end scenario with exactly the entities "John Smith" (PERSON) and
"Microsoft" (ORG) extracted, neither occurs in the anonymized text and
the score is 100. -/
theorem C8_direct_amended :
    (∀ ents anon,
      (allEntityTexts (.ok ents) = [] →
        (test_direct_identifiers (.ok ents) anon).score = 100) ∧
      (allEntityTexts (.ok ents) ≠ [] →
        (test_direct_identifiers (.ok ents) anon).score =
          100 * (1 -
            (((allEntityTexts (.ok ents)).filter
              (fun e => pyContains (pyLower anon) e)).length : ℚ) /
            ((allEntityTexts (.ok ents)).length : ℚ)))) ∧
    (test_direct_identifiers
      (.ok [⟨pystr "John Smith", "PERSON"⟩, ⟨pystr "Microsoft", "ORG"⟩])
      (pystr "The plaintiff from [COMPANY] filed a lawsuit")).score = 100 := by
  refine ⟨fun ents anon => ⟨direct_score_empty _ _, direct_score_formula _ _⟩, ?_⟩
  rw [direct_score_formula _ _ (by decide),
    show ((allEntityTexts
        (.ok [⟨pystr "John Smith", "PERSON"⟩, ⟨pystr "Microsoft", "ORG"⟩])).filter
      (fun e => pyContains (pyLower (pystr "The plaintiff from [COMPANY] filed a lawsuit")) e)).length
      = 0 from by decide,
    show (allEntityTexts
      (.ok [⟨pystr "John Smith", "PERSON"⟩, ⟨pystr "Microsoft", "ORG"⟩])).length = 4
      from by decide]
  push_cast
  norm_num

/-- Witness for C8: the amended formula applied to a concrete extraction
(one PERSON entity, counted in two categories, not leaked). -/
theorem C8_witness :
    (test_direct_identifiers (.ok [⟨pystr "Smith", "PERSON"⟩]) (pystr "y")).score =
      100 * (1 -
        (((allEntityTexts (.ok [⟨pystr "Smith", "PERSON"⟩])).filter
          (fun e => pyContains (pyLower (pystr "y")) e)).length : ℚ) /
        ((allEntityTexts (.ok [⟨pystr "Smith", "PERSON"⟩])).length : ℚ)) :=
  (C8_direct_amended.1 [⟨pystr "Smith", "PERSON"⟩] (pystr "y")).2 (by decide)

theorem cross_reference_score_eq (a : PyStr) (d : CorpusDoc) (ds : List CorpusDoc) :
    (test_cross_reference (d :: ds) a).score =
      100 * (1 - (ds.map (fun doc => calculate_similarity a doc.text)).foldl max
        (calculate_similarity a d.text)) := by
  have hm := @maxBySimilarity_bounds 0 1
    (ds.map (fun doc => (doc.filename, calculate_similarity a doc.text)))
    (d.filename, calculate_similarity a d.text)
    (calculate_similarity_nonneg a d.text) (calculate_similarity_le_one a d.text)
    (by
      intro y hy
      obtain ⟨doc, _, rfl⟩ := List.mem_map.mp hy
      exact ⟨calculate_similarity_nonneg a doc.text, calculate_similarity_le_one a doc.text⟩)
  have hsnd : (maxBySimilarity (d.filename, calculate_similarity a d.text)
      (ds.map (fun doc => (doc.filename, calculate_similarity a doc.text)))).2 =
      (ds.map (fun doc => calculate_similarity a doc.text)).foldl max
        (calculate_similarity a d.text) := by
    rw [maxBySimilarity_snd, List.foldl_map, List.foldl_map]
  dsimp only [test_cross_reference]
  rw [hsnd] at hm ⊢
  rw [max_eq_right (by nlinarith [hm.1, hm.2])]
  ring

/-- C9 (confirmed): the cross-reference probe on an empty corpus returns
score 100 with the note that no comparison was possible (and tier
`low`); on a non-empty corpus it returns
`100 · (1 − max similarity)` where the maximum is the word-set Jaccard
similarity between the anonymized text and each corpus entry. -/
theorem C9_cross_reference :
    (∀ a, test_cross_reference [] a =
      ⟨100, some "low", none, some "No corpus available for cross-reference testing"⟩) ∧
    (∀ a (d : CorpusDoc) (ds : List CorpusDoc),
      (test_cross_reference (d :: ds) a).score =
        100 * (1 - (ds.map (fun doc => calculate_similarity a doc.text)).foldl max
          (calculate_similarity a d.text))) :=
  ⟨fun _ => rfl, fun a d ds => cross_reference_score_eq a d ds⟩

/-- C10 (confirmed): `calculate_similarity` is symmetric, always returns
a value in `[0, 1]`, and returns 0 when both texts contain no words. -/
theorem C10_similarity :
    ∀ a b, calculate_similarity a b = calculate_similarity b a ∧
      0 ≤ calculate_similarity a b ∧ calculate_similarity a b ≤ 1 ∧
      (pyWords a = [] → pyWords b = [] → calculate_similarity a b = 0) := by
  intro a b
  refine ⟨calculate_similarity_comm a b, calculate_similarity_nonneg a b,
    calculate_similarity_le_one a b, ?_⟩
  intro ha hb
  have ha2 : pyWords (pyLower a) = [] := by rw [pyLower_eq_of_words_nil ha]; exact ha
  have hb2 : pyWords (pyLower b) = [] := by rw [pyLower_eq_of_words_nil hb]; exact hb
  dsimp only [calculate_similarity]
  rw [ha2, hb2]
  simp

/-- Witness for C10: two whitespace-only texts have similarity 0. -/
theorem C10_witness : calculate_similarity (pystr " ") (pystr "  ") = 0 :=
  (C10_similarity (pystr " ") (pystr "  ")).2.2.2 (by decide) (by decide)
